import Mathlib

/-!
# gst-rubberband: frame buffers and the chunk loop

A shallow embedding of `src/gstrubberband.c` (the `GstRubberBandBuffer`
routines, `gst_rubber_band_sink_event` and `gst_rubber_band_chain`) together
with the properties proved about it.

Conventions of the embedding (an LP64 platform, as GStreamer targets):

* a C `int` is an `Int`; every `int` operation that can leave the 32-bit
  range is reduced with `wrap32` (two's complement), a conversion to
  `size_t` with `to_size_t` (modulo `2^64`);
* a `float` sample is kept as a natural number (its bit pattern): the code
  only ever copies samples;
* a block of memory is a `List Sample`; a pointer into the block is the
  `Int` offset from its start.  A load outside the block yields `0` and a
  store outside the block is dropped;
* the contents of freshly allocated memory are given by a function `fresh`;
* a loop is a recursion on a bound for the number of its iterations.  The
  loops of append and fetch are given the bound their guard implies; the
  drain loop of `gst_rubber_band_chain`, which an engine can keep running
  for ever, takes the bound as an argument and has no result when it is
  used up;
* the Rubber Band library and the downstream pipeline are parameters
  (`Externals`); the calls made to them are recorded next to the state.
-/

namespace RubberBandElement

/-- One `float` sample, kept as its bit pattern. -/
abbrev Sample := Nat

/-- Largest value of a C `int`. -/
def INT_MAX : Int := 2147483647

/-- Largest value of `ptrdiff_t`; `malloc` refuses larger requests. -/
def PTRDIFF_MAX : Nat := 9223372036854775807

/-- The lower bound on the size of the input buffer (`#define INITIAL_MAX_PROCESS_SIZE 4096`). -/
def INITIAL_MAX_PROCESS_SIZE : Int := 4096

/-- The value of an `int` expression whose mathematical value is `x`: `x`
itself when it is in the range of `int`, and `x` reduced modulo `2^32` to
that range otherwise. -/
def wrap32 (x : Int) : Int :=
  if -2147483648 ≤ x ∧ x ≤ 2147483647 then x
  else (x + 2147483648) % 4294967296 - 2147483648

/-- Conversion of an integer value to `size_t`. -/
def to_size_t (x : Int) : Nat := (x % 18446744073709551616).toNat

/-- The block returned by `malloc (bytes)`, seen as an array of `float`:
`bytes / 4` samples with the contents `fresh`, or no block at all (`NULL`)
when the request is refused. -/
def malloc_floats (fresh : Nat → Sample) (bytes : Nat) : List Sample :=
  if bytes ≤ PTRDIFF_MAX then (List.range (bytes / 4)).map fresh else []

/-- The value of `p[i]` for a block `p`. -/
def load (m : List Sample) (i : Int) : Sample :=
  if 0 ≤ i then m.getD i.toNat 0 else 0

/-- The block `p` after `p[i] = v`. -/
def store (m : List Sample) (i : Int) (v : Sample) : List Sample :=
  if 0 ≤ i then m.set i.toNat v else m

/-- The struct `GstRubberBandBuffer` of `gstrubberband.h`.  `data` is the
block of deinterleaved samples, `channel_data` the table of pointers to the
individual channels, each kept as its offset from the start of `data`. -/
structure GstRubberBandBuffer where
  data : List Sample
  channel_data : List Int
  channels : Int
  frames_buffered : Int
  frame_capacity : Int
deriving DecidableEq, Repr

/-- The function `gst_rubber_band_buffer_allocate`: the old blocks are freed,
a block of `frames * channels * sizeof(float)` bytes and a table of
`channels` pointers are allocated, the three counters are set and the
table is filled with `data + c * frame_capacity`. -/
def gst_rubber_band_buffer_allocate (fresh : Nat → Sample) (_buf : GstRubberBandBuffer)
    (frames channels : Int) : GstRubberBandBuffer :=
  { data := malloc_floats fresh (to_size_t (wrap32 (frames * channels)) * 4 % 18446744073709551616)
    channel_data := (List.range channels.toNat).map (fun (c : Nat) => wrap32 ((c : Int) * frames))
    channels := channels
    frames_buffered := 0
    frame_capacity := frames }

/-- The inner loop of `gst_rubber_band_buffer_append` for the frame `f1` of
the input and the frame `f2` of the buffer:
`buf->channel_data[c][f2] = new_frames[f1 * buf->channels + c]` for every
`c < buf->channels`.  The result is the data block. -/
def append_frame (buf : GstRubberBandBuffer) (new_frames : List Sample) (f1 f2 : Int) :
    List Sample :=
  (List.range buf.channels.toNat).foldl
    (fun d (c : Nat) => store d (buf.channel_data.getD c 0 + f2)
      (load new_frames (wrap32 (wrap32 (f1 * buf.channels) + (c : Int)))))
    buf.data

/-- The outer loop of `gst_rubber_band_buffer_append`, from the state
`(f1, f2)`: it runs while `f1 < frame_count && f2 < buf->frame_capacity`.
The first argument bounds the number of iterations; the result is the
buffer and the final `f2`. -/
def append_loop (new_frames : List Sample) (frame_count : Int) :
    Nat → GstRubberBandBuffer → Int → Int → GstRubberBandBuffer × Int
  | 0, buf, _, f2 => (buf, f2)
  | fuel + 1, buf, f1, f2 =>
    if f1 < frame_count ∧ f2 < buf.frame_capacity then
      append_loop new_frames frame_count fuel
        { buf with data := append_frame buf new_frames f1 f2 } (f1 + 1) (f2 + 1)
    else (buf, f2)

/-- The function `gst_rubber_band_buffer_append` (deinterleave `new_frames`
into `buf`).  The loop starts at `f1 = 0`, `f2 = buf->frames_buffered` and
makes at most `frame_count` iterations (`f1` and `f2` stay below
`frame_count` and `frame_capacity`, so their increments stay in range);
`buf->frames_buffered = f2` at the end.  The debug message of the first
lines has no effect on the state. -/
def gst_rubber_band_buffer_append (buf : GstRubberBandBuffer) (new_frames : List Sample)
    (frame_count : Int) : GstRubberBandBuffer :=
  let r := append_loop new_frames frame_count frame_count.toNat buf 0 buf.frames_buffered
  { r.1 with frames_buffered := r.2 }

/-- The function `gst_rubber_band_buffer_fetch` (interleave `buf` into
`output`): `output[f * buf->channels + c] = buf->channel_data[c][f]` for
`f < frame_count`, `c < buf->channels`.  The result is the output block. -/
def gst_rubber_band_buffer_fetch (buf : GstRubberBandBuffer) (output : List Sample)
    (frame_count : Int) : List Sample :=
  (List.range frame_count.toNat).foldl
    (fun out (f : Nat) => (List.range buf.channels.toNat).foldl
      (fun o (c : Nat) => store o (wrap32 (wrap32 ((f : Int) * buf.channels) + (c : Int)))
        (load buf.data (buf.channel_data.getD c 0 + (f : Int))))
      out)
    output

/-- The buffer as `gst_rubber_band_init` leaves it: no blocks, all counters 0. -/
def GstRubberBandBuffer.init : GstRubberBandBuffer :=
  { data := [], channel_data := [], channels := 0, frames_buffered := 0, frame_capacity := 0 }

/-- One write of the element to the fields of a `GstRubberBandBuffer`.  The
source has three: the calls of `gst_rubber_band_buffer_allocate` (lines 339
and 377), the call of `gst_rubber_band_buffer_append` (line 343) and the
assignment `filter->rb_inbuf.frames_buffered = 0` (line 357). -/
inductive BufferOp where
  | allocate (fresh : Nat → Sample) (frames channels : Int)
  | append (new_frames : List Sample) (frame_count : Int)
  | clear

/-- The buffer after one write of the element. -/
def buffer_step (buf : GstRubberBandBuffer) : BufferOp → GstRubberBandBuffer
  | BufferOp.allocate fresh frames channels =>
    gst_rubber_band_buffer_allocate fresh buf frames channels
  | BufferOp.append new_frames frame_count =>
    gst_rubber_band_buffer_append buf new_frames frame_count
  | BufferOp.clear => { buf with frames_buffered := 0 }

/-- The buffer of an element after the writes `ops`, in order, starting
from the buffer `gst_rubber_band_init` leaves: these are the buffers that
`gst_rubber_band_buffer_append`, a `static` function called on `rb_inbuf`
only, can be handed. -/
def buffer_after (ops : List BufferOp) : GstRubberBandBuffer :=
  ops.foldl buffer_step GstRubberBandBuffer.init

/-- A sequence of `n` stores `p[addr c] = val c`, `c = 0, ..., n - 1`. -/
def writes (m : List Sample) (addr : Nat → Int) (val : Nat → Sample) (n : Nat) : List Sample :=
  (List.range n).foldl (fun d (c : Nat) => store d (addr c) (val c)) m

/-- The layout of the data block that `gst_rubber_band_buffer_allocate`
is meant to set up: channel `c` starts at offset `c * frame_capacity` of a
block of `frame_capacity * channels` samples. -/
def AllocLayout (buf : GstRubberBandBuffer) : Prop :=
  0 ≤ buf.channels ∧ 0 ≤ buf.frame_capacity ∧
  buf.channel_data
    = (List.range buf.channels.toNat).map (fun (c : Nat) => (c : Int) * buf.frame_capacity) ∧
  (buf.data.length : Int) = buf.frame_capacity * buf.channels

instance : DecidablePred AllocLayout := fun buf => by
  unfold AllocLayout
  exact inferInstance

/-- A buffer of 1073741825 frames of 2 channels with the layout of
`AllocLayout` (a data block of 2147483650 samples), empty.  It is written
out by hand: `gst_rubber_band_buffer_allocate (1073741825, 2)` does not
produce it, the `int` product `frames * channels` being out of range. -/
def hugeBuffer : GstRubberBandBuffer :=
  { data := List.replicate 2147483650 0
    channel_data := [0, 1073741825]
    channels := 2
    frames_buffered := 0
    frame_capacity := 1073741825 }

/-- An interleaved input of 1073741825 frames of 2 channels: zeros, except
for the last frame, which is `(7, 7)`. -/
def hugeInput : List Sample := List.replicate 2147483648 0 ++ [7, 7]

/-- The first `n` iterations of the outer loop of
`gst_rubber_band_buffer_fetch`, each inner loop written with `writes`. -/
def fetch_frames (buf : GstRubberBandBuffer) (output : List Sample) (n : Nat) : List Sample :=
  (List.range n).foldl
    (fun out (f : Nat) => writes out
      (fun c => wrap32 (wrap32 ((f : Int) * buf.channels) + (c : Int)))
      (fun c => load buf.data (buf.channel_data.getD c 0 + (f : Int)))
      buf.channels.toNat)
    output

/-! ## The element: format events and the chain function -/

/-- The result of a push, `GstFlowReturn`, as its integer code. -/
abbrev GstFlowReturn := Int

/-- The code `GST_FLOW_OK`. -/
def GST_FLOW_OK : GstFlowReturn := 0

/-- The sample layouts of `GstAudioLayout`. -/
inductive GstAudioLayout where
  | INTERLEAVED
  | NON_INTERLEAVED
deriving DecidableEq, Repr

/-- The fields of `GstAudioInfo` that the element reads. -/
structure GstAudioInfo where
  layout : GstAudioLayout
  rate : Int
  channels : Int
deriving DecidableEq, Repr

/-- An event on the sink pad.  A `CAPS` event carries what
`gst_audio_info_from_caps` makes of its caps: `none` when the caps cannot
be parsed. -/
inductive GstEvent where
  | CAPS (parsed : Option GstAudioInfo)
  | OTHER (type : Nat)
deriving DecidableEq, Repr

/-- A mapped `GstBuffer`: `size` bytes holding the samples `data`. -/
structure GstMapInfo where
  data : List Sample
  size : Nat
deriving DecidableEq, Repr

/-- The two buffers of the element. -/
inductive BufferId where
  | rb_inbuf
  | rb_outbuf
deriving DecidableEq, Repr

/-- The calls the element makes, in the order it makes them: the record
kept next to the state to state the temporal properties.  `allocate`
carries the `frames_buffered` of the buffer at the time of the call;
`retrieve` the number of frames asked for, what the engine wrote to each
channel, and the number it returned. -/
inductive Call where
  | allocate (buf : BufferId) (frames_buffered frames channels : Int)
  | rubberband_new (rate channels : Int)
  | set_max_process_size (samples : Int)
  | process (samples : Int)
  | retrieve (samples : Int) (written : List (List Sample)) (returned : Int)
  | push (chunk : List Sample) (ret : GstFlowReturn)
deriving DecidableEq, Repr

/-- What the element calls and does not define: the Rubber Band library,
over engine states `σ`, and the pipeline downstream of the source pad, over
states `δ`.  `rubberband_process` is given the channel views as a function
from channel and frame to sample; `rubberband_retrieve` returns the new
state, the samples it wrote to each channel view from frame 0 on, and its
return value. -/
structure Externals (σ δ : Type) where
  fresh : Nat → Sample
  rubberband_new : Int → Int → σ
  rubberband_set_time_ratio : σ → ℚ → σ
  rubberband_set_max_process_size : σ → Int → σ
  rubberband_process : σ → (Nat → Int → Sample) → Int → Bool → σ
  rubberband_available : σ → Int
  rubberband_retrieve : σ → Int → σ × List (List Sample) × Int
  gst_pad_push : δ → List Sample → δ × GstFlowReturn
  gst_pad_event_default : δ → GstEvent → δ × Bool

/-- The fields of `struct _GstRubberBand` that the functions below use;
`rb_state` is `none` for the `NULL` handle. -/
structure GstRubberBand (σ : Type) where
  rb_state : Option σ
  rb_inbuf : GstRubberBandBuffer
  rb_outbuf : GstRubberBandBuffer
  info : GstAudioInfo

/-- The element after `gst_rubber_band_init` (the instance memory is
zeroed by GObject, so `info` is all zero). -/
def gst_rubber_band_init (σ : Type) : GstRubberBand σ :=
  { rb_state := none
    rb_inbuf := GstRubberBandBuffer.init
    rb_outbuf := GstRubberBandBuffer.init
    info := { layout := GstAudioLayout.INTERLEAVED, rate := 0, channels := 0 } }

/-- The function `gst_rubber_band_sink_event`.  The result is the element,
the downstream state, the return value and the calls made.  For a `CAPS`
event whose caps do not parse the function returns `FALSE` at once;
otherwise `info` is set (both layouts only log a message), the old engine
is deleted, a new one is made with `rubberband_new` and
`rubberband_set_time_ratio (2.5)`, and the event is forwarded.  Any other
event is forwarded. -/
def gst_rubber_band_sink_event {σ δ : Type} (E : Externals σ δ) (filter : GstRubberBand σ)
    (pad : δ) (event : GstEvent) : GstRubberBand σ × δ × Bool × List Call :=
  match event with
  | GstEvent.CAPS none => (filter, pad, false, [])
  | GstEvent.CAPS (some info) =>
    let st := E.rubberband_set_time_ratio (E.rubberband_new info.rate info.channels) 2.5
    let fwd := E.gst_pad_event_default pad event
    ({ filter with info := info, rb_state := some st }, fwd.1, fwd.2,
      [Call.rubberband_new info.rate info.channels])
  | GstEvent.OTHER _ =>
    let fwd := E.gst_pad_event_default pad event
    (filter, fwd.1, fwd.2, [])

/-- The value of `input_frame_count` in `gst_rubber_band_chain`:
`inbuf_info.size / channels / sizeof(float)`, computed in `size_t` and
converted to `int`. -/
def input_frame_count (channels : Int) (inbuf : GstMapInfo) : Int :=
  wrap32 ((inbuf.size / to_size_t channels / 4 : Nat) : Int)

/-- The value of `required_rb_inbuf_size` in `gst_rubber_band_chain`. -/
def required_rb_inbuf_size (input_frame_count : Int) : Int :=
  if input_frame_count < INITIAL_MAX_PROCESS_SIZE then INITIAL_MAX_PROCESS_SIZE
  else input_frame_count

/-- The state of `gst_rubber_band_chain` from the call of
`rubberband_process` on: the engine, the two buffers, the downstream
state, the calls made so far and `flow_return`. -/
structure ChainState (σ δ : Type) where
  st : σ
  rb_inbuf : GstRubberBandBuffer
  rb_outbuf : GstRubberBandBuffer
  pad : δ
  calls : List Call
  flow_return : GstFlowReturn

/-- Lines 329 to 340 of `gst_rubber_band_chain`, for the engine `st0` and
`input_frame_count = n`: when the capacity of the input buffer is below
`required_rb_inbuf_size` the buffer is reallocated and
`rubberband_set_max_process_size` is called.  The result is the input
buffer, the engine and the calls made. -/
def chain_size {σ δ : Type} (E : Externals σ δ) (filter : GstRubberBand σ) (st0 : σ) (n : Int) :
    GstRubberBandBuffer × σ × List Call :=
  if filter.rb_inbuf.frame_capacity < required_rb_inbuf_size n then
    (gst_rubber_band_buffer_allocate E.fresh filter.rb_inbuf (required_rb_inbuf_size n)
        filter.info.channels,
      E.rubberband_set_max_process_size st0 (required_rb_inbuf_size n),
      [Call.allocate BufferId.rb_inbuf filter.rb_inbuf.frames_buffered
          (required_rb_inbuf_size n) filter.info.channels,
        Call.set_max_process_size (required_rb_inbuf_size n)])
  else (filter.rb_inbuf, st0, [])

/-- Line 343 of `gst_rubber_band_chain`: the input buffer after the chunk
has been appended to the buffer that `chain_size` leaves. -/
def chain_fill {σ δ : Type} (E : Externals σ δ) (filter : GstRubberBand σ) (st0 : σ)
    (inbuf : GstMapInfo) : GstRubberBandBuffer :=
  gst_rubber_band_buffer_append
    (chain_size E filter st0 (input_frame_count filter.info.channels inbuf)).1
    inbuf.data (input_frame_count filter.info.channels inbuf)

/-- Lines 325 to 357 of `gst_rubber_band_chain`: the input buffer is sized
(`chain_size`), the chunk is appended (`chain_fill`), the engine processes
`frames_buffered` frames and `frames_buffered` is set to 0.  There is no
result when `channels` is 0 (a division by zero) or the engine handle is
`NULL`. -/
def chain_feed {σ δ : Type} (E : Externals σ δ) (filter : GstRubberBand σ) (pad : δ)
    (inbuf : GstMapInfo) : Option (ChainState σ δ) :=
  if to_size_t filter.info.channels = 0 then none
  else
    match filter.rb_state with
    | none => none
    | some st0 =>
      let sized := chain_size E filter st0 (input_frame_count filter.info.channels inbuf)
      let inb := chain_fill E filter st0 inbuf
      let st := E.rubberband_process sized.2.1
        (fun c i => load inb.data (inb.channel_data.getD c 0 + i)) inb.frames_buffered false
      some { st := st
             rb_inbuf := { inb with frames_buffered := 0 }
             rb_outbuf := filter.rb_outbuf
             pad := pad
             calls := sized.2.2 ++ [Call.process inb.frames_buffered]
             flow_return := GST_FLOW_OK }

/-- The data block of `buf` after `rubberband_retrieve` has written the
samples `written[c]` to the channel view `c`, from frame 0 on. -/
def retrieve_into (buf : GstRubberBandBuffer) (written : List (List Sample)) : List Sample :=
  (List.range written.length).foldl
    (fun d (c : Nat) => writes d (fun i => buf.channel_data.getD c 0 + (i : Int))
      (fun i => (written.getD c []).getD i 0) (written.getD c []).length)
    buf.data

/-- Lines 374 to 384 of `gst_rubber_band_chain`, in an iteration entered in
the state `s`: the output buffer, reallocated when its capacity is below
`output_frame_count = rubberband_available (..)`, after
`rubberband_retrieve` has written into its channel views. -/
def drain_retrieve {σ δ : Type} (E : Externals σ δ) (channels : Int) (s : ChainState σ δ) :
    GstRubberBandBuffer :=
  let out1 := if s.rb_outbuf.frame_capacity < E.rubberband_available s.st then
      gst_rubber_band_buffer_allocate E.fresh s.rb_outbuf (E.rubberband_available s.st) channels
    else s.rb_outbuf
  { out1 with
    data := retrieve_into out1
      (E.rubberband_retrieve s.st (E.rubberband_available s.st)).2.1 }

/-- Lines 389 to 396 of `gst_rubber_band_chain`: the contents of the new
`GstBuffer` of `output_frame_count * channels * sizeof(float)` bytes after
`gst_rubber_band_buffer_fetch` of `output_frame_count` frames. -/
def drain_chunk {σ δ : Type} (E : Externals σ δ) (channels : Int) (s : ChainState σ δ) :
    List Sample :=
  gst_rubber_band_buffer_fetch (drain_retrieve E channels s)
    (malloc_floats E.fresh
      (to_size_t (wrap32 (E.rubberband_available s.st * channels)) * 4 % 18446744073709551616))
    (E.rubberband_available s.st)

/-- One iteration of the loop of `gst_rubber_band_chain` (lines 369 to
399), entered with `rubberband_available > 0`: the output buffer is
reallocated when too small, the engine writes into its channel views
(`drain_retrieve`), a new `GstBuffer` is filled by
`gst_rubber_band_buffer_fetch` (`drain_chunk`) and pushed. -/
def drain_iter {σ δ : Type} (E : Externals σ δ) (channels : Int) (s : ChainState σ δ) :
    ChainState σ δ :=
  { st := (E.rubberband_retrieve s.st (E.rubberband_available s.st)).1
    rb_inbuf := s.rb_inbuf
    rb_outbuf := drain_retrieve E channels s
    pad := (E.gst_pad_push s.pad (drain_chunk E channels s)).1
    calls := s.calls
      ++ (if s.rb_outbuf.frame_capacity < E.rubberband_available s.st then
          [Call.allocate BufferId.rb_outbuf s.rb_outbuf.frames_buffered
            (E.rubberband_available s.st) channels]
        else [])
      ++ [Call.retrieve (E.rubberband_available s.st)
            (E.rubberband_retrieve s.st (E.rubberband_available s.st)).2.1
            (E.rubberband_retrieve s.st (E.rubberband_available s.st)).2.2,
          Call.push (drain_chunk E channels s)
            (E.gst_pad_push s.pad (drain_chunk E channels s)).2]
    flow_return := (E.gst_pad_push s.pad (drain_chunk E channels s)).2 }

/-- The loop `while ((output_frame_count = rubberband_available (..)) > 0)`
of `gst_rubber_band_chain`, left by `break` when a push does not return
`GST_FLOW_OK`.  The first argument bounds the number of iterations: there
is no result when it is used up. -/
def drain_loop {σ δ : Type} (E : Externals σ δ) (channels : Int) :
    Nat → ChainState σ δ → Option (ChainState σ δ)
  | 0, s => if E.rubberband_available s.st > 0 then none else some s
  | fuel + 1, s =>
    if E.rubberband_available s.st > 0 then
      if (drain_iter E channels s).flow_return ≠ GST_FLOW_OK then some (drain_iter E channels s)
      else drain_loop E channels fuel (drain_iter E channels s)
    else some s

/-- What a call of `gst_rubber_band_chain` leaves: the element, the
downstream state, the calls made and the return value. -/
structure ChainResult (σ δ : Type) where
  filter : GstRubberBand σ
  pad : δ
  calls : List Call
  ret : GstFlowReturn

/-- The result of `gst_rubber_band_chain` when it ends in the state `s`. -/
def chain_result {σ δ : Type} (filter : GstRubberBand σ) (s : ChainState σ δ) :
    ChainResult σ δ :=
  { filter := { filter with rb_state := some s.st, rb_inbuf := s.rb_inbuf,
                            rb_outbuf := s.rb_outbuf }
    pad := s.pad
    calls := s.calls
    ret := s.flow_return }

/-- The function `gst_rubber_band_chain`: after `chain_feed`, it returns
`GST_FLOW_OK` when `rubberband_available` is 0, and runs the loop
otherwise. -/
def gst_rubber_band_chain {σ δ : Type} (E : Externals σ δ) (fuel : Nat)
    (filter : GstRubberBand σ) (pad : δ) (inbuf : GstMapInfo) : Option (ChainResult σ δ) :=
  match chain_feed E filter pad inbuf with
  | none => none
  | some s =>
    if E.rubberband_available s.st = 0 then some (chain_result filter s)
    else (drain_loop E filter.info.channels fuel s).map (chain_result filter)

/-- A sequence of chunks through `gst_rubber_band_chain`: the results of
the calls, in order. -/
def chain_seq {σ δ : Type} (E : Externals σ δ) (fuel : Nat) :
    GstRubberBand σ → δ → List GstMapInfo → Option (List (ChainResult σ δ))
  | _, _, [] => some []
  | filter, pad, inbuf :: rest =>
    match gst_rubber_band_chain E fuel filter pad inbuf with
    | none => none
    | some r => (chain_seq E fuel r.filter r.pad rest).map (fun rs => r :: rs)

/-- What arrives on the sink pad: an event or a chunk. -/
inductive StageInput where
  | event (e : GstEvent)
  | chunk (inbuf : GstMapInfo)
deriving DecidableEq, Repr

/-- A sequence of events and chunks through `gst_rubber_band_sink_event`
and `gst_rubber_band_chain`: the final element and downstream state and
all the calls made, in order. -/
def run {σ δ : Type} (E : Externals σ δ) (fuel : Nat) :
    GstRubberBand σ → δ → List StageInput → Option (GstRubberBand σ × δ × List Call)
  | filter, pad, [] => some (filter, pad, [])
  | filter, pad, StageInput.event e :: rest =>
    let r := gst_rubber_band_sink_event E filter pad e
    (run E fuel r.1 r.2.1 rest).map (fun x => (x.1, x.2.1, r.2.2.2 ++ x.2.2))
  | filter, pad, StageInput.chunk inbuf :: rest =>
    match gst_rubber_band_chain E fuel filter pad inbuf with
    | none => none
    | some r => (run E fuel r.filter r.pad rest).map (fun x => (x.1, x.2.1, r.calls ++ x.2.2))

/-- One ready batch of a scripted engine: what `rubberband_available`
reports, and what `rubberband_retrieve` then writes and returns. -/
structure Batch where
  available : Int
  written : List (List Sample)
  returned : Int
deriving DecidableEq, Repr

/-- Concrete externals for the examples: an engine that plays the batches
of `script` (its state is the list of batches left; `rubberband_process`
and the setters leave it alone), and a downstream whose state is the list
of results of the pushes to come (`GST_FLOW_OK` when it is used up) and
which accepts every event. -/
def scripted (script : List Batch) : Externals (List Batch) (List GstFlowReturn) :=
  { fresh := fun _ => 0
    rubberband_new := fun _ _ => script
    rubberband_set_time_ratio := fun st _ => st
    rubberband_set_max_process_size := fun st _ => st
    rubberband_process := fun st _ _ _ => st
    rubberband_available := fun st => (st.head?.map Batch.available).getD 0
    rubberband_retrieve := fun st _ =>
      (st.tail, (st.head?.map Batch.written).getD [], (st.head?.map Batch.returned).getD 0)
    gst_pad_push := fun pad _ => (pad.tail, pad.head?.getD GST_FLOW_OK)
    gst_pad_event_default := fun pad _ => (pad, true) }

/-- The caps of 2 interleaved channels at 44100 Hz. -/
def stereo : GstAudioInfo :=
  { layout := GstAudioLayout.INTERLEAVED, rate := 44100, channels := 2 }

/-- The pushes among the calls, in order: the chunk and the result of each. -/
def pushes : List Call → List (List Sample × GstFlowReturn)
  | [] => []
  | Call.push chunk ret :: rest => (chunk, ret) :: pushes rest
  | _ :: rest => pushes rest

/-- The calls of `rubberband_retrieve` among the calls, in order: the
number of frames asked for, the samples written, the number returned. -/
def retrieves : List Call → List (Int × List (List Sample) × Int)
  | [] => []
  | Call.retrieve samples written returned :: rest => (samples, written, returned) :: retrieves rest
  | _ :: rest => retrieves rest

/-- The element of the examples: `gst_rubber_band_init` followed by a `CAPS`
event with the caps `info`, over the externals `scripted script`. -/
def negotiated (script : List Batch) (info : GstAudioInfo) : GstRubberBand (List Batch) :=
  (gst_rubber_band_sink_event (scripted script) (gst_rubber_band_init (List Batch)) []
    (GstEvent.CAPS (some info))).1

/-- The interleaved chunk of `frames` frames of `channels` channels whose
channel `c` holds the samples `written[c]`: the sample of frame `f` and
channel `c` is at position `f * channels + c`. -/
def interleave (channels frames : Nat) (written : List (List Sample)) : List Sample :=
  (List.range (frames * channels)).map
    (fun i => (written.getD (i % channels) []).getD (i / channels) 0)

/-- The number of frames of `channels` channels pushed downstream by the
calls: the sum of the lengths of the chunks, in frames. -/
def frames_emitted (channels : Int) (calls : List Call) : Int :=
  ((pushes calls).map (fun p => (p.1.length : Int) / channels)).sum

/-- The number of frames `rubberband_retrieve` returned over the calls. -/
def frames_retrieved (calls : List Call) : Int :=
  ((retrieves calls).map (fun q => q.2.2)).sum

/-- The first `n` channels of `retrieve_into`. -/
def retrieve_rows (buf : GstRubberBandBuffer) (written : List (List Sample)) (n : Nat) :
    List Sample :=
  (List.range n).foldl
    (fun d (c : Nat) => writes d (fun i => buf.channel_data.getD c 0 + (i : Int))
      (fun i => (written.getD c []).getD i 0) (written.getD c []).length)
    buf.data

/-- What one call of `rubberband_retrieve`, recorded as the number of
frames asked for, the samples written and the number returned, has to
satisfy to be exact for `channels` channels: it returned the number of
frames asked for, and wrote that many samples to each of the `channels`
channel views. -/
def ExactRetrieve (channels : Int) (q : Int × List (List Sample) × Int) : Prop :=
  q.2.2 = q.1 ∧ (q.2.1.length : Int) = channels ∧ ∀ w ∈ q.2.1, (w.length : Int) = q.1

/-- The output buffer is fit for `channels` channels: it holds no frame
(it will be reallocated in any iteration), or it has the layout of
`AllocLayout` for `channels` channels. -/
def OutputFit (channels : Int) (buf : GstRubberBandBuffer) : Prop :=
  buf.frame_capacity ≤ 0 ∨ (AllocLayout buf ∧ buf.channels = channels)

/-- The chunk of the push `p` is the interleaving of what the retrieve `q`
wrote, for `channels` channels and the number of frames asked for. -/
def EmitsRetrieved (channels : Int) (p : List Sample × GstFlowReturn)
    (q : Int × List (List Sample) × Int) : Prop :=
  0 < q.1 ∧ p.1 = interleave channels.toNat q.1.toNat q.2.1

/-- A drain iteration about to start on 4 channels with an empty output
buffer and an engine that has 1073741824 frames ready and, asked for them,
writes and returns that many. -/
def overflowState : ChainState (List Batch) (List GstFlowReturn) :=
  { st := [⟨1073741824,
      [List.replicate 1073741824 0, List.replicate 1073741824 0,
        List.replicate 1073741824 0, List.replicate 1073741824 0], 1073741824⟩]
    rb_inbuf := GstRubberBandBuffer.init
    rb_outbuf := GstRubberBandBuffer.init
    pad := []
    calls := []
    flow_return := GST_FLOW_OK }

/-- A drain iteration about to start with an output buffer laid out for 2
channels of 2 frames and an engine for 1 channel that has 2 frames ready
and, asked for them, writes and returns 2 frames. -/
def mismatchState : ChainState (List Batch) (List GstFlowReturn) :=
  { st := [⟨2, [[5, 6]], 2⟩]
    rb_inbuf := GstRubberBandBuffer.init
    rb_outbuf := { data := [9, 9, 9, 9], channel_data := [0, 2], channels := 2,
                   frames_buffered := 0, frame_capacity := 2 }
    pad := []
    calls := []
    flow_return := GST_FLOW_OK }

instance (channels : Int) : DecidablePred (ExactRetrieve channels) := fun q => by
  unfold ExactRetrieve
  exact inferInstance

instance (channels : Int) : DecidablePred (OutputFit channels) := fun buf => by
  unfold OutputFit
  exact inferInstance

/-- The check of the precondition of `rubberband_process` over the calls:
`limits` holds the values given to `rubberband_set_max_process_size` on the
engine in use (none right after `rubberband_new`), and every `process` has
to pass a frame count that is at most one of them. -/
def max_process_size_respected : List Int → List Call → Bool
  | _, [] => true
  | _, Call.rubberband_new _ _ :: rest => max_process_size_respected [] rest
  | limits, Call.set_max_process_size samples :: rest =>
    max_process_size_respected (samples :: limits) rest
  | limits, Call.process samples :: rest =>
    limits.any (fun v => decide (samples ≤ v)) && max_process_size_respected limits rest
  | limits, _ :: rest => max_process_size_respected limits rest

/-- A chunk of 4096 stereo frames (32768 bytes), all zero. -/
def fullChunk : GstMapInfo := { data := List.replicate 8192 0, size := 32768 }

/-- The caps of 2 non-interleaved channels at 44100 Hz. -/
def planar : GstAudioInfo :=
  { layout := GstAudioLayout.NON_INTERLEAVED, rate := 44100, channels := 2 }

/-- Concrete externals for the examples: an engine that never has output
ready (it is still filling its latency), and a downstream that accepts
everything. -/
def latent : Externals Unit Unit :=
  { fresh := fun _ => 0
    rubberband_new := fun _ _ => ()
    rubberband_set_time_ratio := fun _ _ => ()
    rubberband_set_max_process_size := fun _ _ => ()
    rubberband_process := fun _ _ _ _ => ()
    rubberband_available := fun _ => 0
    rubberband_retrieve := fun _ _ => ((), [], 0)
    gst_pad_push := fun _ _ => ((), GST_FLOW_OK)
    gst_pad_event_default := fun _ _ => ((), true) }

/-- The calls of `rubberband_process` among the calls, in order: the frame
count of each. -/
def processes : List Call → List Int
  | [] => []
  | Call.process samples :: rest => samples :: processes rest
  | _ :: rest => processes rest

/-- The calls of `gst_rubber_band_buffer_allocate` among the calls, in
order: the buffer, its `frames_buffered` at the call, and the arguments. -/
def allocations : List Call → List (BufferId × Int × Int × Int)
  | [] => []
  | Call.allocate buf frames_buffered frames channels :: rest =>
    (buf, frames_buffered, frames, channels) :: allocations rest
  | _ :: rest => allocations rest

/-- What the capacity-violation branch being unreachable means for one
call of `gst_rubber_band_chain` on the chunk `c`, entered with the element
`entry` and left with the result `r`, for `ch` channels: the input buffer
is empty on entry; every allocate is made on a buffer with
`frames_buffered = 0`; the append leaves `frames_buffered` at the frame
count `c.size / ch / 4` of the chunk; `rubberband_process` is called once,
with that frame count; and the input buffer is empty on return. -/
def GoodCall {σ δ : Type} (E : Externals σ δ) (ch : Int) (entry : GstRubberBand σ)
    (c : GstMapInfo) (r : ChainResult σ δ) : Prop :=
  entry.rb_inbuf.frames_buffered = 0 ∧
  (∀ a ∈ allocations r.calls, a.2.1 = 0) ∧
  (∀ st0, (chain_fill E entry st0 c).frames_buffered = ((c.size / ch.toNat / 4 : Nat) : Int)) ∧
  processes r.calls = [((c.size / ch.toNat / 4 : Nat) : Int)] ∧
  r.filter.rb_inbuf.frames_buffered = 0

/-- `GoodCall` for every call of a sequence: the call on the first chunk is
entered with `entry`, every later call with the element the call before it
left. -/
def GoodSeq {σ δ : Type} (E : Externals σ δ) (ch : Int) :
    GstRubberBand σ → List GstMapInfo → List (ChainResult σ δ) → Prop
  | _, [], [] => True
  | entry, c :: cs, r :: rs => GoodCall E ch entry c r ∧ GoodSeq E ch r.filter cs rs
  | _, _, _ => False

/-- The caps of 1 interleaved channel at 44100 Hz. -/
def mono : GstAudioInfo :=
  { layout := GstAudioLayout.INTERLEAVED, rate := 44100, channels := 1 }

/-- A chunk of 2147483648 mono frames (8589934592 bytes), all zero. -/
def hugeChunk : GstMapInfo := { data := List.replicate 2147483648 0, size := 8589934592 }

/-- Concrete externals for the examples, like `scripted`, with an engine
whose batches depend on the channel count it is made for: the engine made
by `rubberband_new (rate, channels)` plays the batches `script channels`. -/
def scriptedBy (script : Int → List Batch) : Externals (List Batch) (List GstFlowReturn) :=
  { fresh := fun _ => 0
    rubberband_new := fun _ channels => script channels
    rubberband_set_time_ratio := fun st _ => st
    rubberband_set_max_process_size := fun st _ => st
    rubberband_process := fun st _ _ _ => st
    rubberband_available := fun st => (st.head?.map Batch.available).getD 0
    rubberband_retrieve := fun st _ =>
      (st.tail, (st.head?.map Batch.written).getD [], (st.head?.map Batch.returned).getD 0)
    gst_pad_push := fun pad _ => (pad.tail, pad.head?.getD GST_FLOW_OK)
    gst_pad_event_default := fun pad _ => (pad, true) }

/-- The engines of the format-change example: the engine for 2 channels
has one batch of 2 frames ready, `(1, 3)` and `(2, 4)`; the engine for any
other channel count has one batch of 2 mono frames ready, 5 and 6.  Both
return the 2 frames they are asked for. -/
def formatChangeScript (channels : Int) : List Batch :=
  if channels = 2 then [⟨2, [[1, 2], [3, 4]], 2⟩] else [⟨2, [[5, 6]], 2⟩]

/-- The format-change example: 2 channels are negotiated and a chunk of 2
stereo frames arrives; then 1 channel is negotiated and a chunk of 2 mono
frames, 7 and 8, arrives. -/
def formatChangeInputs : List StageInput :=
  [StageInput.event (GstEvent.CAPS (some stereo)), StageInput.chunk ⟨[1, 2, 3, 4], 16⟩,
    StageInput.event (GstEvent.CAPS (some mono)), StageInput.chunk ⟨[7, 8], 8⟩]
/-! ## Arithmetic and memory lemmas -/

theorem wrap32_of_range {x : Int} (h1 : -2147483648 ≤ x) (h2 : x ≤ INT_MAX) : wrap32 x = x := by
  unfold INT_MAX at h2
  unfold wrap32
  rw [if_pos ⟨h1, h2⟩]

theorem to_size_t_of_nonneg {x : Int} (h1 : 0 ≤ x) (h2 : x ≤ INT_MAX) : (to_size_t x : Int) = x := by
  unfold to_size_t
  unfold INT_MAX at h2
  omega

theorem length_store (m : List Sample) (i : Int) (v : Sample) :
    (store m i v).length = m.length := by
  unfold store
  split <;> simp

theorem load_store_same (m : List Sample) (i : Int) (v : Sample) (h0 : 0 ≤ i)
    (h1 : i < m.length) : load (store m i v) i = v := by
  have h2 : i.toNat < m.length := by omega
  simp [load, store, h0, List.getD_eq_getElem?_getD, List.getElem?_set, h2]

theorem load_store_other (m : List Sample) (i j : Int) (v : Sample) (h : i ≠ j) :
    load (store m i v) j = load m j := by
  unfold load store
  by_cases hj : 0 ≤ j <;> by_cases hi : 0 ≤ i <;> simp [hj, hi]
  have h2 : i.toNat ≠ j.toNat := by omega
  simp [List.getD_eq_getElem?_getD, List.getElem?_set, h2]

theorem writes_succ (m : List Sample) (addr : Nat → Int) (val : Nat → Sample) (n : Nat) :
    writes m addr val (n + 1) = store (writes m addr val n) (addr n) (val n) := by
  simp [writes, List.range_succ, List.foldl_append]

theorem length_writes (m : List Sample) (addr : Nat → Int) (val : Nat → Sample) (n : Nat) :
    (writes m addr val n).length = m.length := by
  induction n with
  | zero => simp [writes]
  | succ n ih => rw [writes_succ, length_store, ih]

theorem load_writes_other (m : List Sample) (addr : Nat → Int) (val : Nat → Sample) (n : Nat)
    (j : Int) (h : ∀ c, c < n → addr c ≠ j) : load (writes m addr val n) j = load m j := by
  induction n with
  | zero => simp [writes]
  | succ n ih =>
    rw [writes_succ, load_store_other _ _ _ _ (h n (Nat.lt_succ_self n))]
    exact ih (fun c hc => h c (Nat.lt_succ_of_lt hc))

theorem load_writes_same (m : List Sample) (addr : Nat → Int) (val : Nat → Sample) (n : Nat)
    (hinj : ∀ c d, c < n → d < n → addr c = addr d → c = d)
    (hin : ∀ c, c < n → 0 ≤ addr c ∧ addr c < m.length) (c : Nat) (hc : c < n) :
    load (writes m addr val n) (addr c) = val c := by
  induction n with
  | zero => omega
  | succ n ih =>
    rw [writes_succ]
    by_cases hcn : c = n
    · subst hcn
      exact load_store_same _ _ _ (hin c hc).1 (by rw [length_writes]; exact (hin c hc).2)
    · have hc2 : c < n := by omega
      rw [load_store_other]
      · exact ih (fun a b ha hb => hinj a b (by omega) (by omega))
          (fun a ha => hin a (by omega)) hc2
      · intro he
        exact hcn (hinj n c (by omega) hc he).symm

/-! ## Index arithmetic of the deinterleaved layout -/

theorem idx_inj {cap a b : Int} {c d : Nat} (ha0 : 0 ≤ a) (ha : a < cap) (hb0 : 0 ≤ b)
    (hb : b < cap) (h : (c : Int) * cap + a = (d : Int) * cap + b) : c = d ∧ a = b := by
  have hcd : c = d := by
    rcases Nat.lt_trichotomy c d with hlt | heq | hgt
    · exfalso
      have h1 : (c : Int) + 1 ≤ (d : Int) := by exact_mod_cast hlt
      have h2 : ((c : Int) + 1) * cap ≤ (d : Int) * cap :=
        mul_le_mul_of_nonneg_right h1 (by omega)
      nlinarith
    · exact heq
    · exfalso
      have h1 : (d : Int) + 1 ≤ (c : Int) := by exact_mod_cast hgt
      have h2 : ((d : Int) + 1) * cap ≤ (c : Int) * cap :=
        mul_le_mul_of_nonneg_right h1 (by omega)
      nlinarith
  subst hcd
  exact ⟨rfl, by omega⟩

theorem idx_lt {cap ch a : Int} {c : Nat} (hc : (c : Int) < ch) (ha : a < cap) (hcap : 0 ≤ cap) :
    (c : Int) * cap + a < cap * ch := by
  have h1 : (c : Int) + 1 ≤ ch := by omega
  have h2 : ((c : Int) + 1) * cap ≤ ch * cap := mul_le_mul_of_nonneg_right h1 hcap
  nlinarith

theorem idx_nonneg {cap a : Int} {c : Nat} (ha : 0 ≤ a) (hcap : 0 ≤ cap) :
    0 ≤ (c : Int) * cap + a := by
  have : 0 ≤ (c : Int) * cap := mul_nonneg (by omega) hcap
  omega

theorem index_no_wrap {ch i : Int} {c : Nat} (hch : 0 ≤ ch) (hi : 0 ≤ i) (hc : (c : Int) < ch)
    (hov : (i + 1) * ch ≤ 2147483648) :
    wrap32 (wrap32 (i * ch) + (c : Int)) = i * ch + (c : Int) := by
  have h1 : 0 ≤ i * ch := mul_nonneg hi hch
  have h2 : (i + 1) * ch = i * ch + ch := by ring
  rw [wrap32_of_range (x := i * ch) (by omega) (by unfold INT_MAX; omega)]
  rw [wrap32_of_range (by omega) (by unfold INT_MAX; omega)]

theorem layout_view {buf : GstRubberBandBuffer} (h : AllocLayout buf) {c : Nat}
    (hc : (c : Int) < buf.channels) :
    buf.channel_data.getD c 0 = (c : Int) * buf.frame_capacity := by
  obtain ⟨_, _, h3, _⟩ := h
  have hc2 : c < buf.channels.toNat := by omega
  rw [h3]
  simp [List.getD_eq_getElem?_getD, hc2]

/-! ## The append loop -/

theorem append_loop_count (nf : List Sample) (fc : Int) :
    ∀ (fuel : Nat) (buf : GstRubberBandBuffer) (f1 f2 : Int),
      (fc - f1).toNat ≤ fuel → f2 ≤ buf.frame_capacity →
      (append_loop nf fc fuel buf f1 f2).2
          = f2 + min (max (fc - f1) 0) (buf.frame_capacity - f2) ∧
        (append_loop nf fc fuel buf f1 f2).1.channels = buf.channels ∧
        (append_loop nf fc fuel buf f1 f2).1.frame_capacity = buf.frame_capacity ∧
        (append_loop nf fc fuel buf f1 f2).1.channel_data = buf.channel_data ∧
        (append_loop nf fc fuel buf f1 f2).1.frames_buffered = buf.frames_buffered := by
  intro fuel
  induction fuel with
  | zero =>
    intro buf f1 f2 hfuel hcap
    simp only [append_loop, and_self, and_true]
    omega
  | succ n ih =>
    intro buf f1 f2 hfuel hcap
    simp only [append_loop]
    split
    · rename_i hg
      obtain ⟨e1, e2, e3, e4, e5⟩ :=
        ih { buf with data := append_frame buf nf f1 f2 } (f1 + 1) (f2 + 1)
          (by omega) (by simp only; omega)
      refine ⟨?_, e2, e3, e4, e5⟩
      rw [e1]
      simp only
      omega
    · rename_i hg
      simp only [and_self, and_true]
      omega

theorem append_frame_eq_writes (buf : GstRubberBandBuffer) (nf : List Sample) (f1 f2 : Int) :
    append_frame buf nf f1 f2
      = writes buf.data (fun c => buf.channel_data.getD c 0 + f2)
          (fun c => load nf (wrap32 (wrap32 (f1 * buf.channels) + (c : Int))))
          buf.channels.toNat := rfl

theorem length_append_frame (buf : GstRubberBandBuffer) (nf : List Sample) (f1 f2 : Int) :
    (append_frame buf nf f1 f2).length = buf.data.length := by
  rw [append_frame_eq_writes, length_writes]

theorem append_frame_same {buf : GstRubberBandBuffer} (h : AllocLayout buf) (nf : List Sample)
    (f1 f2 : Int) (h0 : 0 ≤ f2) (h1 : f2 < buf.frame_capacity) (c : Nat)
    (hc : (c : Int) < buf.channels) :
    load (append_frame buf nf f1 f2) ((c : Int) * buf.frame_capacity + f2)
      = load nf (wrap32 (wrap32 (f1 * buf.channels) + (c : Int))) := by
  rw [append_frame_eq_writes]
  have key := load_writes_same buf.data (fun c => buf.channel_data.getD c 0 + f2)
    (fun c => load nf (wrap32 (wrap32 (f1 * buf.channels) + (c : Int)))) buf.channels.toNat
    (by
      intro a b ha hb hab
      simp only at hab
      rw [layout_view h (by omega), layout_view h (by omega)] at hab
      exact (idx_inj h0 h1 h0 h1 hab).1)
    (by
      intro a ha
      simp only
      rw [layout_view h (by omega)]
      refine ⟨idx_nonneg h0 h.2.1, ?_⟩
      rw [h.2.2.2]
      exact idx_lt (by omega) h1 h.2.1)
    c (by omega)
  beta_reduce at key
  rw [layout_view h hc] at key
  exact key

theorem append_frame_other {buf : GstRubberBandBuffer} (h : AllocLayout buf) (nf : List Sample)
    (f1 f2 : Int) (j : Int)
    (hj : ∀ c : Nat, (c : Int) < buf.channels → j ≠ (c : Int) * buf.frame_capacity + f2) :
    load (append_frame buf nf f1 f2) j = load buf.data j := by
  rw [append_frame_eq_writes]
  apply load_writes_other
  intro c hc
  show buf.channel_data.getD c 0 + f2 ≠ j
  rw [layout_view h (by omega)]
  exact fun e => hj c (by omega) e.symm

theorem layout_with_data {buf : GstRubberBandBuffer} (h : AllocLayout buf) (d : List Sample)
    (hd : d.length = buf.data.length) : AllocLayout { buf with data := d } := by
  obtain ⟨h1, h2, h3, h4⟩ := h
  exact ⟨h1, h2, h3, by simp only [hd]; exact h4⟩

theorem append_loop_data (nf : List Sample) (fc : Int) :
    ∀ (fuel : Nat) (buf : GstRubberBandBuffer) (f1 f2 : Int),
      AllocLayout buf → (fc - f1).toNat ≤ fuel → 0 ≤ f2 → f2 ≤ buf.frame_capacity →
      (append_loop nf fc fuel buf f1 f2).1.data.length = buf.data.length ∧
      (∀ (c : Nat) (i : Int), (c : Int) < buf.channels → 0 ≤ i →
          i < min (max (fc - f1) 0) (buf.frame_capacity - f2) →
          load (append_loop nf fc fuel buf f1 f2).1.data
              ((c : Int) * buf.frame_capacity + (f2 + i))
            = load nf (wrap32 (wrap32 ((f1 + i) * buf.channels) + (c : Int)))) ∧
      (∀ j : Int,
          (∀ (c : Nat) (i : Int), (c : Int) < buf.channels → 0 ≤ i →
            i < min (max (fc - f1) 0) (buf.frame_capacity - f2) →
            j ≠ (c : Int) * buf.frame_capacity + (f2 + i)) →
          load (append_loop nf fc fuel buf f1 f2).1.data j = load buf.data j) := by
  intro fuel
  induction fuel with
  | zero =>
    intro buf f1 f2 _ hfuel h0 hcap
    simp only [append_loop, true_and]
    exact ⟨fun c i _ hi0 hik => by omega, fun j _ => trivial⟩
  | succ n ih =>
    intro buf f1 f2 hl hfuel h0 hcap
    simp only [append_loop]
    split
    · rename_i hg
      have hl1 := layout_with_data hl (append_frame buf nf f1 f2)
        (length_append_frame buf nf f1 f2)
      obtain ⟨e1, e2, e3⟩ := ih { buf with data := append_frame buf nf f1 f2 } (f1 + 1) (f2 + 1)
        hl1 (by omega) (by omega) (by simp only; omega)
      simp only at e1 e2 e3
      refine ⟨by rw [e1, length_append_frame], ?_, ?_⟩
      · intro c i hc hi0 hik
        by_cases hi : i = 0
        · subst hi
          rw [e3]
          · simpa using append_frame_same hl nf f1 f2 h0 hg.2 c hc
          · intro d i hd hi0 _ he
            have := (idx_inj (a := f2 + 0) (b := f2 + 1 + i) (by omega) (by omega) (by omega)
              (by omega) he).2
            omega
        · have := e2 c (i - 1) hc (by omega) (by omega)
          have e4 : f2 + 1 + (i - 1) = f2 + i := by ring
          have e5 : f1 + 1 + (i - 1) = f1 + i := by ring
          rw [e4, e5] at this
          exact this
      · intro j hj
        rw [e3]
        · apply append_frame_other hl
          intro c hc
          have := hj c 0 hc (le_refl 0) (by omega)
          simpa using this
        · intro c i hc hi0 hik
          have := hj c (i + 1) hc (by omega) (by omega)
          have e4 : f2 + 1 + i = f2 + (i + 1) := by ring
          rw [e4]
          exact this
    · rename_i hg
      simp only [true_and]
      exact ⟨fun c i _ hi0 hik => by omega, fun j _ => trivial⟩

theorem append_loop_fields (nf : List Sample) (fc : Int) :
    ∀ (fuel : Nat) (buf : GstRubberBandBuffer) (f1 f2 : Int),
      (append_loop nf fc fuel buf f1 f2).1.channels = buf.channels ∧
        (append_loop nf fc fuel buf f1 f2).1.frame_capacity = buf.frame_capacity ∧
        (append_loop nf fc fuel buf f1 f2).1.channel_data = buf.channel_data ∧
        (append_loop nf fc fuel buf f1 f2).1.data.length = buf.data.length := by
  intro fuel
  induction fuel with
  | zero =>
    intro buf f1 f2
    simp [append_loop]
  | succ n ih =>
    intro buf f1 f2
    simp only [append_loop]
    split
    · obtain ⟨e1, e2, e3, e4⟩ :=
        ih { buf with data := append_frame buf nf f1 f2 } (f1 + 1) (f2 + 1)
      exact ⟨e1, e2, e3, by rw [e4]; exact length_append_frame buf nf f1 f2⟩
    · simp

theorem append_fields (buf : GstRubberBandBuffer) (nf : List Sample) (fc : Int) :
    (gst_rubber_band_buffer_append buf nf fc).channels = buf.channels ∧
      (gst_rubber_band_buffer_append buf nf fc).frame_capacity = buf.frame_capacity ∧
      (gst_rubber_band_buffer_append buf nf fc).channel_data = buf.channel_data ∧
      (gst_rubber_band_buffer_append buf nf fc).data.length = buf.data.length :=
  append_loop_fields nf fc fc.toNat buf 0 buf.frames_buffered

theorem append_frames_buffered (buf : GstRubberBandBuffer) (nf : List Sample) (fc : Int)
    (h1 : buf.frames_buffered ≤ buf.frame_capacity) :
    (gst_rubber_band_buffer_append buf nf fc).frames_buffered
      = buf.frames_buffered + min (max fc 0) (buf.frame_capacity - buf.frames_buffered) := by
  obtain ⟨e1, _⟩ := append_loop_count nf fc fc.toNat buf 0 buf.frames_buffered (by omega) h1
  simp only [gst_rubber_band_buffer_append]
  rw [e1]
  simp

theorem getElem?_eq_of_load_eq {a b : List Sample} (hlen : a.length = b.length) (j : Nat)
    (h : load a (j : Int) = load b (j : Int)) : a[j]? = b[j]? := by
  by_cases hj : j < a.length
  · have hj2 : j < b.length := by omega
    simp only [load, Int.toNat_ofNat, Int.ofNat_zero_le, if_true, List.getD_eq_getElem?_getD,
      List.getElem?_eq_getElem hj, List.getElem?_eq_getElem hj2, Option.getD_some] at h
    rw [List.getElem?_eq_getElem hj, List.getElem?_eq_getElem hj2, h]
  · have hj2 : ¬ j < b.length := by omega
    rw [List.getElem?_eq_none (by omega), List.getElem?_eq_none (by omega)]

/-! ## C2: no overflow on append -/

/-- C2. For every buffer with `0 ≤ frames_buffered ≤ frame_capacity`, every
input and every `frame_count`, `gst_rubber_band_buffer_append` leaves
`frames_buffered` at the old value plus
`min (max frame_count 0) (frame_capacity - frames_buffered)`, which is at
most `frame_capacity`, and leaves `frame_capacity` and `channels` as they
were. -/
theorem append_no_overflow (buf : GstRubberBandBuffer) (new_frames : List Sample)
    (frame_count : Int) (_h0 : 0 ≤ buf.frames_buffered)
    (h1 : buf.frames_buffered ≤ buf.frame_capacity) :
    (gst_rubber_band_buffer_append buf new_frames frame_count).frames_buffered
        = buf.frames_buffered
          + min (max frame_count 0) (buf.frame_capacity - buf.frames_buffered) ∧
      (gst_rubber_band_buffer_append buf new_frames frame_count).frames_buffered
        ≤ buf.frame_capacity ∧
      (gst_rubber_band_buffer_append buf new_frames frame_count).frame_capacity
        = buf.frame_capacity ∧
      (gst_rubber_band_buffer_append buf new_frames frame_count).channels = buf.channels := by
  obtain ⟨e1, e2, e3, _, _⟩ := append_loop_count new_frames frame_count frame_count.toNat buf 0
    buf.frames_buffered (by omega) h1
  simp only [gst_rubber_band_buffer_append]
  rw [e1]
  refine ⟨by simp, ?_, e3, e2⟩
  have : frame_count - 0 = frame_count := by ring
  rw [this]
  omega

/-- C2, an instance: three frames offered to a buffer that holds one frame
and has room for two. -/
theorem append_no_overflow_witness :
    (gst_rubber_band_buffer_append
        { data := [4, 0], channel_data := [0], channels := 1, frames_buffered := 1,
          frame_capacity := 2 } [5, 6, 7] 3).frames_buffered = 1 + min (max 3 0) (2 - 1) ∧
      (gst_rubber_band_buffer_append
        { data := [4, 0], channel_data := [0], channels := 1, frames_buffered := 1,
          frame_capacity := 2 } [5, 6, 7] 3).frames_buffered ≤ 2 ∧
      (gst_rubber_band_buffer_append
        { data := [4, 0], channel_data := [0], channels := 1, frames_buffered := 1,
          frame_capacity := 2 } [5, 6, 7] 3).frame_capacity = 2 ∧
      (gst_rubber_band_buffer_append
        { data := [4, 0], channel_data := [0], channels := 1, frames_buffered := 1,
          frame_capacity := 2 } [5, 6, 7] 3).channels = 1 :=
  append_no_overflow
    { data := [4, 0], channel_data := [0], channels := 1, frames_buffered := 1,
      frame_capacity := 2 } [5, 6, 7] 3 (by decide) (by decide)

/-! ## C3: where append puts the samples -/

theorem append_data_spec (buf : GstRubberBandBuffer) (nf : List Sample) (fc : Int)
    (hl : AllocLayout buf) (h0 : 0 ≤ buf.frames_buffered)
    (h1 : buf.frames_buffered ≤ buf.frame_capacity) :
    (gst_rubber_band_buffer_append buf nf fc).channel_data = buf.channel_data ∧
    (gst_rubber_band_buffer_append buf nf fc).data.length = buf.data.length ∧
    (∀ (c : Nat) (i : Int), (c : Int) < buf.channels → 0 ≤ i →
        i < min fc (buf.frame_capacity - buf.frames_buffered) →
        load (gst_rubber_band_buffer_append buf nf fc).data
            ((c : Int) * buf.frame_capacity + (buf.frames_buffered + i))
          = load nf (wrap32 (wrap32 (i * buf.channels) + (c : Int)))) ∧
    (∀ j : Int,
        (∀ (c : Nat) (i : Int), (c : Int) < buf.channels → 0 ≤ i →
          i < min fc (buf.frame_capacity - buf.frames_buffered) →
          j ≠ (c : Int) * buf.frame_capacity + (buf.frames_buffered + i)) →
        load (gst_rubber_band_buffer_append buf nf fc).data j = load buf.data j) := by
  obtain ⟨_, _, _, e4, _⟩ := append_loop_count nf fc fc.toNat buf 0
    buf.frames_buffered (by omega) h1
  obtain ⟨d1, d2, d3⟩ := append_loop_data nf fc fc.toNat buf 0 buf.frames_buffered hl
    (by omega) h0 h1
  simp only [gst_rubber_band_buffer_append]
  refine ⟨e4, d1, ?_, ?_⟩
  · intro c i hc hi0 hik
    have := d2 c i hc hi0 (by omega)
    rw [this]
    simp
  · intro j hj
    apply d3
    intro c i hc hi0 hik
    exact hj c i hc hi0 (by omega)

theorem load_replicate_append (n : Nat) (a b : Sample) :
    load (List.replicate n 0 ++ [a, b]) (n : Int) = a := by
  unfold load
  simp only [Int.ofNat_zero_le, if_true, Int.toNat_ofNat, List.getD_eq_getElem?_getD]
  rw [List.getElem?_append_right (by simp)]
  simp

theorem load_neg (m : List Sample) (i : Int) (h : i < 0) : load m i = 0 := by
  simp [load, not_le.mpr h]

/-- The bound of `append_data_unwrapped` cannot be dropped for a buffer
written out by hand: in `hugeBuffer` (1073741825 frames of 2 channels, more
samples than `gst_rubber_band_buffer_allocate` can ask for, see
`allocate_layout_bound`) an append of the 1073741825 frames of `hugeInput`
does not leave channel 0, frame 1073741824 equal to
`new_frames[1073741824 * 2 + 0]`: the `int` index `f1 * buf->channels + c`
has left the 32-bit range. -/
theorem append_index_wraps_on_hand_built_buffer :
    AllocLayout hugeBuffer ∧ hugeBuffer.frames_buffered ≤ hugeBuffer.frame_capacity ∧
      (1073741824 : Int)
        < min 1073741825 (hugeBuffer.frame_capacity - hugeBuffer.frames_buffered) ∧
      load (gst_rubber_band_buffer_append hugeBuffer hugeInput 1073741825).data
          ((gst_rubber_band_buffer_append hugeBuffer hugeInput 1073741825).channel_data.getD 0 0
            + (hugeBuffer.frames_buffered + 1073741824))
        ≠ load hugeInput (1073741824 * hugeBuffer.channels + 0) := by
  have hl : AllocLayout hugeBuffer := by
    refine ⟨by decide, by decide, by decide, ?_⟩
    show ((List.replicate 2147483650 0).length : Int) = 1073741825 * 2
    rw [List.length_replicate]
    decide
  refine ⟨hl, by decide, by decide, ?_⟩
  obtain ⟨e1, _, e3, _⟩ := append_data_spec hugeBuffer hugeInput 1073741825 hl (by decide)
    (by decide)
  have key := e3 0 1073741824 (by decide) (by decide) (by decide)
  have hw : wrap32 (wrap32 (1073741824 * hugeBuffer.channels) + ((0 : Nat) : Int))
      = -2147483648 := by decide
  have ha : ((0 : Nat) : Int) * hugeBuffer.frame_capacity
      + (hugeBuffer.frames_buffered + 1073741824)
      = hugeBuffer.channel_data.getD 0 0 + (hugeBuffer.frames_buffered + 1073741824) := by
    decide
  have hb : (1073741824 : Int) * hugeBuffer.channels + 0 = ((2147483648 : Nat) : Int) := by
    decide
  rw [hw, ha, load_neg hugeInput (-2147483648) (by decide)] at key
  rw [e1, key, hb]
  unfold hugeInput
  rw [load_replicate_append 2147483648 7 7]
  decide

/-- For every buffer with the layout of `AllocLayout` and
`0 ≤ frames_buffered ≤ frame_capacity`, with `k = min frame_count
(frame_capacity - frames_buffered)` frames copied and `k * channels ≤ 2^31`
(the `int` index `f1 * channels + c` stays in range),
`gst_rubber_band_buffer_append` leaves channel `c`, frame
`frames_buffered + i` equal to `new_frames[i * channels + c]` for every
`i < k`, `c < channels`, and leaves every other sample of the data block,
the length of the block and the channel table as they were. -/
theorem append_data_unwrapped (buf : GstRubberBandBuffer) (new_frames : List Sample)
    (frame_count : Int) (hl : AllocLayout buf) (h0 : 0 ≤ buf.frames_buffered)
    (h1 : buf.frames_buffered ≤ buf.frame_capacity)
    (hov : min frame_count (buf.frame_capacity - buf.frames_buffered) * buf.channels
      ≤ 2147483648) :
    (∀ (c : Nat) (i : Int), (c : Int) < buf.channels → 0 ≤ i →
        i < min frame_count (buf.frame_capacity - buf.frames_buffered) →
        load (gst_rubber_band_buffer_append buf new_frames frame_count).data
            ((gst_rubber_band_buffer_append buf new_frames frame_count).channel_data.getD c 0
              + (buf.frames_buffered + i))
          = load new_frames (i * buf.channels + (c : Int))) ∧
    (∀ j : Nat,
        (∀ (c : Nat) (i : Int), (c : Int) < buf.channels → 0 ≤ i →
          i < min frame_count (buf.frame_capacity - buf.frames_buffered) →
          (j : Int) ≠ buf.channel_data.getD c 0 + (buf.frames_buffered + i)) →
        (gst_rubber_band_buffer_append buf new_frames frame_count).data[j]? = buf.data[j]?) ∧
    (gst_rubber_band_buffer_append buf new_frames frame_count).data.length = buf.data.length ∧
    (gst_rubber_band_buffer_append buf new_frames frame_count).channel_data
      = buf.channel_data := by
  obtain ⟨e1, e2, e3, e4⟩ := append_data_spec buf new_frames frame_count hl h0 h1
  refine ⟨?_, ?_, e2, e1⟩
  · intro c i hc hi0 hik
    rw [e1, layout_view hl hc, e3 c i hc hi0 hik]
    have hc0 : (0 : Int) ≤ (c : Int) := by omega
    have hi1 : i + 1 ≤ min frame_count (buf.frame_capacity - buf.frames_buffered) := by omega
    have h2 : (i + 1) * buf.channels
        ≤ min frame_count (buf.frame_capacity - buf.frames_buffered) * buf.channels :=
      mul_le_mul_of_nonneg_right hi1 hl.1
    have h3 : 0 ≤ i * buf.channels := mul_nonneg hi0 hl.1
    rw [wrap32_of_range (x := i * buf.channels) (by omega) (by unfold INT_MAX; nlinarith)]
    rw [wrap32_of_range (by omega) (by unfold INT_MAX; nlinarith)]
  · intro j hj
    apply getElem?_eq_of_load_eq e2
    apply e4
    intro c i hc hi0 hik
    rw [← layout_view hl hc]
    exact hj c i hc hi0 hik

theorem append_loop_mono (nf : List Sample) (fc : Int) :
    ∀ (fuel : Nat) (buf : GstRubberBandBuffer) (f1 f2 : Int),
      f2 ≤ (append_loop nf fc fuel buf f1 f2).2 := by
  intro fuel
  induction fuel with
  | zero =>
    intro buf f1 f2
    simp only [append_loop, le_refl]
  | succ n ih =>
    intro buf f1 f2
    simp only [append_loop]
    split
    · have := ih { buf with data := append_frame buf nf f1 f2 } (f1 + 1) (f2 + 1)
      omega
    · exact le_refl _

theorem append_frames_buffered_nonneg (buf : GstRubberBandBuffer) (nf : List Sample) (fc : Int)
    (h0 : 0 ≤ buf.frames_buffered) :
    0 ≤ (gst_rubber_band_buffer_append buf nf fc).frames_buffered := by
  have := append_loop_mono nf fc fc.toNat buf 0 buf.frames_buffered
  simp only [gst_rubber_band_buffer_append]
  omega

theorem allocate_layout_bound (fresh : Nat → Sample) (buf : GstRubberBandBuffer)
    (frames channels : Int)
    (hl : AllocLayout (gst_rubber_band_buffer_allocate fresh buf frames channels)) :
    frames * channels ≤ INT_MAX := by
  obtain ⟨h1, h2, _, h4⟩ := hl
  simp only [gst_rubber_band_buffer_allocate, malloc_floats] at h1 h2 h4
  have hp : 0 ≤ frames * channels := mul_nonneg h2 h1
  generalize frames * channels = p at h4 hp
  unfold INT_MAX
  by_contra hcon
  have hc : ¬ (-2147483648 ≤ p ∧ p ≤ 2147483647) := by omega
  have hb : PTRDIFF_MAX < to_size_t (wrap32 p) * 4 % 18446744073709551616 ∨
      ((to_size_t (wrap32 p) * 4 % 18446744073709551616 / 4 : Nat) : Int) < 2147483648 := by
    unfold wrap32 to_size_t PTRDIFF_MAX
    rw [if_neg hc]
    omega
  generalize to_size_t (wrap32 p) * 4 % 18446744073709551616 = b at h4 hb
  split at h4
  · simp only [List.length_map, List.length_range] at h4
    omega
  · simp only [List.length_nil] at h4
    omega

theorem buffer_after_invariant (ops : List BufferOp) :
    0 ≤ (buffer_after ops).frames_buffered ∧
      (AllocLayout (buffer_after ops) →
        (buffer_after ops).frame_capacity * (buffer_after ops).channels ≤ INT_MAX) := by
  have key : ∀ (ops : List BufferOp) (buf : GstRubberBandBuffer),
      (0 ≤ buf.frames_buffered ∧
        (AllocLayout buf → buf.frame_capacity * buf.channels ≤ INT_MAX)) →
      0 ≤ (ops.foldl buffer_step buf).frames_buffered ∧
        (AllocLayout (ops.foldl buffer_step buf) →
          (ops.foldl buffer_step buf).frame_capacity * (ops.foldl buffer_step buf).channels
            ≤ INT_MAX) := by
    intro ops
    induction ops with
    | nil => intro buf h; exact h
    | cons op rest ih =>
      intro buf h
      apply ih
      cases op with
      | allocate fresh frames channels =>
        exact ⟨le_refl _, allocate_layout_bound fresh buf frames channels⟩
      | append nf fc =>
        obtain ⟨e1, e2, e3, e4⟩ := append_fields buf nf fc
        refine ⟨append_frames_buffered_nonneg buf nf fc h.1, ?_⟩
        intro hl
        change AllocLayout (gst_rubber_band_buffer_append buf nf fc) at hl
        show (gst_rubber_band_buffer_append buf nf fc).frame_capacity
          * (gst_rubber_band_buffer_append buf nf fc).channels ≤ INT_MAX
        rw [e1, e2]
        apply h.2
        obtain ⟨l1, l2, l3, l4⟩ := hl
        rw [e1] at l1
        rw [e2] at l2
        rw [e3, e1, e2] at l3
        rw [e4, e2, e1] at l4
        exact ⟨l1, l2, l3, l4⟩
      | clear => exact ⟨le_refl _, h.2⟩
  exact key ops GstRubberBandBuffer.init ⟨le_refl _, fun _ => by decide⟩

/-- C3. For every buffer the element can hand to
`gst_rubber_band_buffer_append` (the buffer after any sequence of its
writes: allocate, append, `frames_buffered = 0`) that satisfies the
allocate layout `AllocLayout` (channel view `c` at offset
`c * frame_capacity` of the data block) with
`b = frames_buffered ≤ frame_capacity`, and `k = min frame_count
(frame_capacity - b)` frames copied: `gst_rubber_band_buffer_append` leaves
channel `c`, frame `b + i` equal to `new_frames[i * channels + c]` for
every `i < k` and `c < channels`, and leaves every other sample of the data
block (so all frames below `b` in every channel), the length of the block
and the channel table as they were. -/
theorem append_places_samples (ops : List BufferOp) (buf : GstRubberBandBuffer)
    (new_frames : List Sample) (frame_count : Int) (hb : buf = buffer_after ops)
    (hl : AllocLayout buf) (h1 : buf.frames_buffered ≤ buf.frame_capacity) :
    (∀ (c : Nat) (i : Int), (c : Int) < buf.channels → 0 ≤ i →
        i < min frame_count (buf.frame_capacity - buf.frames_buffered) →
        load (gst_rubber_band_buffer_append buf new_frames frame_count).data
            ((gst_rubber_band_buffer_append buf new_frames frame_count).channel_data.getD c 0
              + (buf.frames_buffered + i))
          = load new_frames (i * buf.channels + (c : Int))) ∧
    (∀ j : Nat,
        (∀ (c : Nat) (i : Int), (c : Int) < buf.channels → 0 ≤ i →
          i < min frame_count (buf.frame_capacity - buf.frames_buffered) →
          (j : Int) ≠ buf.channel_data.getD c 0 + (buf.frames_buffered + i)) →
        (gst_rubber_band_buffer_append buf new_frames frame_count).data[j]? = buf.data[j]?) ∧
    (gst_rubber_band_buffer_append buf new_frames frame_count).data.length = buf.data.length ∧
    (gst_rubber_band_buffer_append buf new_frames frame_count).channel_data
      = buf.channel_data := by
  subst hb
  obtain ⟨h0, hbound⟩ := buffer_after_invariant ops
  have hcap := hbound hl
  apply append_data_unwrapped (buffer_after ops) new_frames frame_count hl h0 h1
  have hk : min frame_count
      ((buffer_after ops).frame_capacity - (buffer_after ops).frames_buffered)
      ≤ (buffer_after ops).frame_capacity := by omega
  have hm := mul_le_mul_of_nonneg_right hk hl.1
  unfold INT_MAX at hcap
  omega

/-- C3, an instance: the input buffer after an allocate of 3 frames of 2
channels and an append of the frame `(1, 2)`; two more frames are
appended. -/
theorem append_places_samples_witness :
    load (gst_rubber_band_buffer_append
          (buffer_after [BufferOp.allocate (fun _ => 0) 3 2, BufferOp.append [1, 2] 1])
          [5, 6, 7, 8] 2).data
        ((gst_rubber_band_buffer_append
          (buffer_after [BufferOp.allocate (fun _ => 0) 3 2, BufferOp.append [1, 2] 1])
          [5, 6, 7, 8] 2).channel_data.getD 1 0 + (1 + 1))
      = load [5, 6, 7, 8] (1 * 2 + ((1 : Nat) : Int)) ∧
    (gst_rubber_band_buffer_append
        (buffer_after [BufferOp.allocate (fun _ => 0) 3 2, BufferOp.append [1, 2] 1])
        [5, 6, 7, 8] 2).data
      = [1, 5, 7, 2, 6, 8] :=
  ⟨(append_places_samples [BufferOp.allocate (fun _ => 0) 3 2, BufferOp.append [1, 2] 1]
      (buffer_after [BufferOp.allocate (fun _ => 0) 3 2, BufferOp.append [1, 2] 1])
      [5, 6, 7, 8] 2 rfl (by decide) (by decide)).1 1 1 (by decide) (by decide)
      (by decide), by decide⟩

/-! ## C4: the state after allocate -/

theorem allocate_layout (fresh : Nat → Sample) (buf : GstRubberBandBuffer)
    (frames channels : Int) (hf : 0 ≤ frames) (hc : 0 ≤ channels)
    (hov : frames * channels ≤ INT_MAX) :
    AllocLayout (gst_rubber_band_buffer_allocate fresh buf frames channels) := by
  have hp : 0 ≤ frames * channels := mul_nonneg hf hc
  refine ⟨hc, hf, ?_, ?_⟩
  · simp only [gst_rubber_band_buffer_allocate]
    apply List.map_congr_left
    intro c hc2
    have hc3 : c < channels.toNat := List.mem_range.mp hc2
    have h1 : ((c : Int) + 1) * frames ≤ channels * frames :=
      mul_le_mul_of_nonneg_right (by omega) hf
    have h2 : 0 ≤ (c : Int) * frames := mul_nonneg (by omega) hf
    exact wrap32_of_range (by omega) (by nlinarith)
  · simp only [gst_rubber_band_buffer_allocate, malloc_floats]
    rw [wrap32_of_range (by omega) hov]
    have h3 := to_size_t_of_nonneg hp hov
    unfold INT_MAX at hov
    have h4 : to_size_t (frames * channels) * 4 % 18446744073709551616
        = to_size_t (frames * channels) * 4 := by omega
    rw [h4, if_pos (by unfold PTRDIFF_MAX; omega)]
    simp only [List.length_map, List.length_range]
    omega

/-- C4, as stated, fails when `frames * channels` leaves the `int` range:
for `frames = 1073741824`, `channels = 4` the product is `2^32`, the size
passed to `malloc` is 0, the data block has no sample, and the index
`0 * frames + 0` of channel 0, frame 0 is not inside it. -/
theorem allocate_postcondition_counterexample :
    (0 : Int) ≤ 1073741824 ∧ (0 : Int) ≤ 4 ∧
      ((gst_rubber_band_buffer_allocate (fun _ => 0) GstRubberBandBuffer.init
          1073741824 4).data.length : Int) ≠ 1073741824 * 4 ∧
      ¬ ((gst_rubber_band_buffer_allocate (fun _ => 0) GstRubberBandBuffer.init
            1073741824 4).channel_data.getD 0 0 + 0
          < ((gst_rubber_band_buffer_allocate (fun _ => 0) GstRubberBandBuffer.init
            1073741824 4).data.length : Int)) := by
  decide

/-- C4, amended. For every prior buffer state and every `frames ≥ 0`,
`channels ≥ 0` with `frames * channels ≤ INT_MAX`, after
`gst_rubber_band_buffer_allocate` the buffer has `frame_capacity = frames`,
`channels = channels`, `frames_buffered = 0`, a table of `channels` channel
views with view `c` at offset `c * frames`, and a data block of
`frames * channels` samples; for `c < channels`, `f < frames` the index of
frame `f` of channel `c` is inside the block, and distinct pairs `(c, f)`
have distinct indices. -/
theorem allocate_postcondition (fresh : Nat → Sample) (buf : GstRubberBandBuffer)
    (frames channels : Int) (hf : 0 ≤ frames) (hc : 0 ≤ channels)
    (hov : frames * channels ≤ INT_MAX) :
    (gst_rubber_band_buffer_allocate fresh buf frames channels).frame_capacity = frames ∧
    (gst_rubber_band_buffer_allocate fresh buf frames channels).channels = channels ∧
    (gst_rubber_band_buffer_allocate fresh buf frames channels).frames_buffered = 0 ∧
    ((gst_rubber_band_buffer_allocate fresh buf frames channels).channel_data.length : Int)
      = channels ∧
    ((gst_rubber_band_buffer_allocate fresh buf frames channels).data.length : Int)
      = frames * channels ∧
    (∀ c : Nat, (c : Int) < channels →
      (gst_rubber_band_buffer_allocate fresh buf frames channels).channel_data.getD c 0
        = (c : Int) * frames) ∧
    (∀ (c : Nat) (f : Int), (c : Int) < channels → 0 ≤ f → f < frames →
      0 ≤ (gst_rubber_band_buffer_allocate fresh buf frames channels).channel_data.getD c 0 + f ∧
      (gst_rubber_band_buffer_allocate fresh buf frames channels).channel_data.getD c 0 + f
        < ((gst_rubber_band_buffer_allocate fresh buf frames channels).data.length : Int)) ∧
    (∀ (c d : Nat) (f g : Int), (c : Int) < channels → (d : Int) < channels →
      0 ≤ f → f < frames → 0 ≤ g → g < frames →
      (gst_rubber_band_buffer_allocate fresh buf frames channels).channel_data.getD c 0 + f
        = (gst_rubber_band_buffer_allocate fresh buf frames channels).channel_data.getD d 0 + g →
      c = d ∧ f = g) := by
  have hl := allocate_layout fresh buf frames channels hf hc hov
  have hv : ∀ c : Nat, (c : Int) < channels →
      (gst_rubber_band_buffer_allocate fresh buf frames channels).channel_data.getD c 0
        = (c : Int) * frames := fun c hc2 => layout_view hl hc2
  refine ⟨rfl, rfl, rfl, ?_, hl.2.2.2, hv, ?_, ?_⟩
  · simp only [gst_rubber_band_buffer_allocate, List.length_map, List.length_range]
    omega
  · intro c f hc2 hf0 hf1
    rw [hv c hc2, hl.2.2.2]
    exact ⟨idx_nonneg hf0 hf, idx_lt hc2 hf1 hf⟩
  · intro c d f g hc2 hd2 hf0 hf1 hg0 hg1 he
    rw [hv c hc2, hv d hd2] at he
    exact idx_inj hf0 hf1 hg0 hg1 he

/-- C4, an instance: 3 frames of 2 channels, over a buffer that held data. -/
theorem allocate_postcondition_witness :
    (gst_rubber_band_buffer_allocate (fun _ => 0)
        { data := [1, 2], channel_data := [0, 1], channels := 2, frames_buffered := 1,
          frame_capacity := 1 } 3 2)
      = { data := [0, 0, 0, 0, 0, 0], channel_data := [0, 3], channels := 2,
          frames_buffered := 0, frame_capacity := 3 } ∧
    (gst_rubber_band_buffer_allocate (fun _ => 0)
        { data := [1, 2], channel_data := [0, 1], channels := 2, frames_buffered := 1,
          frame_capacity := 1 } 3 2).frame_capacity = 3 :=
  ⟨by decide,
    (allocate_postcondition (fun _ => 0)
      { data := [1, 2], channel_data := [0, 1], channels := 2, frames_buffered := 1,
        frame_capacity := 1 } 3 2 (by decide) (by decide) (by decide)).1⟩

/-! ## The fetch loop -/

theorem fetch_eq_fetch_frames (buf : GstRubberBandBuffer) (output : List Sample)
    (frame_count : Int) :
    gst_rubber_band_buffer_fetch buf output frame_count
      = fetch_frames buf output frame_count.toNat := rfl

theorem fetch_frames_succ (buf : GstRubberBandBuffer) (output : List Sample) (n : Nat) :
    fetch_frames buf output (n + 1)
      = writes (fetch_frames buf output n)
          (fun c => wrap32 (wrap32 ((n : Int) * buf.channels) + (c : Int)))
          (fun c => load buf.data (buf.channel_data.getD c 0 + (n : Int)))
          buf.channels.toNat := by
  simp [fetch_frames, List.range_succ, List.foldl_append]

theorem fetch_frames_spec (buf : GstRubberBandBuffer) (output : List Sample)
    (hch : 0 ≤ buf.channels) :
    ∀ n : Nat, (n : Int) * buf.channels ≤ 2147483648 →
      (n : Int) * buf.channels ≤ output.length →
      (fetch_frames buf output n).length = output.length ∧
      (∀ f c : Nat, f < n → (c : Int) < buf.channels →
        load (fetch_frames buf output n) ((f : Int) * buf.channels + (c : Int))
          = load buf.data (buf.channel_data.getD c 0 + (f : Int))) ∧
      (∀ j : Int, (n : Int) * buf.channels ≤ j →
        load (fetch_frames buf output n) j = load output j) := by
  intro n
  induction n with
  | zero =>
    intro _ _
    exact ⟨rfl, fun f c hf _ => by omega, fun j _ => rfl⟩
  | succ n ih =>
    intro hov hlen
    have hstep : ((n : Int) + 1) * buf.channels = (n : Int) * buf.channels + buf.channels := by
      ring
    have hcast : (((n + 1 : Nat) : Int)) = (n : Int) + 1 := by push_cast; ring
    rw [hcast] at hov hlen
    have h0 : 0 ≤ (n : Int) * buf.channels := mul_nonneg (by omega) hch
    obtain ⟨i1, i2, i3⟩ := ih (by omega) (by omega)
    have haddr : ∀ c : Nat, c < buf.channels.toNat →
        wrap32 (wrap32 ((n : Int) * buf.channels) + (c : Int))
          = (n : Int) * buf.channels + (c : Int) :=
      fun c hc => index_no_wrap hch (by omega) (by omega) hov
    rw [fetch_frames_succ]
    refine ⟨by rw [length_writes, i1], ?_, ?_⟩
    · intro f c hf hc
      by_cases hfn : f = n
      · subst hfn
        have key := load_writes_same (fetch_frames buf output f)
          (fun c => wrap32 (wrap32 ((f : Int) * buf.channels) + (c : Int)))
          (fun c => load buf.data (buf.channel_data.getD c 0 + (f : Int)))
          buf.channels.toNat
          (by
            intro a b ha hb hab
            beta_reduce at hab
            rw [haddr a ha, haddr b hb] at hab
            omega)
          (by
            intro a ha
            beta_reduce
            rw [haddr a ha, i1]
            omega)
          c (by omega)
        beta_reduce at key
        rw [haddr c (by omega)] at key
        exact key
      · have hf2 : f < n := by omega
        rw [load_writes_other]
        · exact i2 f c hf2 hc
        · intro a ha
          beta_reduce
          rw [haddr a ha]
          have h3 : ((f : Int) + 1) * buf.channels ≤ (n : Int) * buf.channels :=
            mul_le_mul_of_nonneg_right (by omega) hch
          have h4 : ((f : Int) + 1) * buf.channels
              = (f : Int) * buf.channels + buf.channels := by ring
          omega
    · intro j hj
      rw [hcast] at hj
      rw [load_writes_other]
      · exact i3 j (by omega)
      · intro a ha
        beta_reduce
        rw [haddr a ha]
        omega

theorem getElem?_eq_of_load_eq_of_lt {a b : List Sample} (j : Nat) (ha : j < a.length)
    (hb : j < b.length) (h : load a (j : Int) = load b (j : Int)) : a[j]? = b[j]? := by
  simp only [load, Int.toNat_ofNat, Int.ofNat_zero_le, if_true, List.getD_eq_getElem?_getD,
    List.getElem?_eq_getElem ha, List.getElem?_eq_getElem hb, Option.getD_some] at h
  rw [List.getElem?_eq_getElem ha, List.getElem?_eq_getElem hb, h]

/-! ## C1: append followed by fetch -/

theorem round_trip_load (fresh : Nat → Sample) (buf : GstRubberBandBuffer) (ch cap n : Int)
    (x out : List Sample) (hch : 1 ≤ ch) (hcap : 0 ≤ cap) (hn0 : 0 ≤ n) (hn : n ≤ cap)
    (hov : cap * ch ≤ INT_MAX) (hout : n * ch ≤ out.length) :
    (gst_rubber_band_buffer_fetch
        (gst_rubber_band_buffer_append (gst_rubber_band_buffer_allocate fresh buf cap ch) x n)
        out n).length = out.length ∧
    ∀ f c : Nat, (f : Int) < n → (c : Int) < ch →
      load (gst_rubber_band_buffer_fetch
          (gst_rubber_band_buffer_append (gst_rubber_band_buffer_allocate fresh buf cap ch) x n)
          out n) ((f : Int) * ch + (c : Int))
        = load x ((f : Int) * ch + (c : Int)) := by
  have hl := allocate_layout fresh buf cap ch hcap (by omega) hov
  generalize hb1 : gst_rubber_band_buffer_allocate fresh buf cap ch = b1 at hl ⊢
  have hc1 : b1.channels = ch := by rw [← hb1]; rfl
  have hk1 : b1.frame_capacity = cap := by rw [← hb1]; rfl
  have hf1 : b1.frames_buffered = 0 := by rw [← hb1]; rfl
  have hnc : n * ch ≤ cap * ch := mul_le_mul_of_nonneg_right hn (by omega)
  obtain ⟨a4, _, _, _⟩ := append_fields b1 x n
  obtain ⟨p1, _, p3, _⟩ := append_data_spec b1 x n hl (by omega) (by omega)
  generalize gst_rubber_band_buffer_append b1 x n = b2 at a4 p1 p3 ⊢
  rw [hc1] at a4
  rw [fetch_eq_fetch_frames]
  have hnn : ((n.toNat : Nat) : Int) = n := Int.toNat_of_nonneg hn0
  obtain ⟨q1, q2, _⟩ := fetch_frames_spec b2 out (by omega) n.toNat
    (by rw [hnn, a4]; unfold INT_MAX at hov; omega) (by rw [hnn, a4]; exact hout)
  refine ⟨q1, ?_⟩
  intro f c hf hc
  have := q2 f c (by omega) (by omega)
  rw [a4] at this
  rw [this, p1, layout_view hl (by omega)]
  have := p3 c (f : Int) (by omega) (by omega) (by omega)
  rw [hf1, hc1, hk1] at this
  rw [hk1]
  have hfc : ((f : Int) + 1) * ch ≤ n * ch := mul_le_mul_of_nonneg_right (by omega) (by omega)
  rw [index_no_wrap (by omega) (by omega) hc (by unfold INT_MAX at hov; omega)] at this
  simpa using this

/-- C1, as stated, fails when `cap * ch` leaves the `int` range: with
`cap = 1073741824`, `ch = 4` the data block allocated has no sample, and a
one-frame input `[1, 2, 3, 4]` is not what fetch writes to the output. -/
theorem append_fetch_round_trip_counterexample :
    (1 : Int) ≤ 4 ∧ (0 : Int) ≤ 1073741824 ∧ (0 : Int) ≤ 1 ∧ (1 : Int) ≤ 1073741824 ∧
      (([1, 2, 3, 4] : List Sample).length : Int) = 1 * 4 ∧
      (gst_rubber_band_buffer_fetch
          (gst_rubber_band_buffer_append
            (gst_rubber_band_buffer_allocate (fun _ => 0) GstRubberBandBuffer.init 1073741824 4)
            [1, 2, 3, 4] 1)
          [0, 0, 0, 0] 1)[0]? ≠ ([1, 2, 3, 4] : List Sample)[0]? := by
  decide

/-- C1, amended. For every channel count `ch ≥ 1`, capacity `cap ≥ 0` with
`cap * ch ≤ INT_MAX`, frame count `0 ≤ n ≤ cap`, every interleaved input
`x` of `n * ch` samples and every output block of at least `n * ch`
samples: after `gst_rubber_band_buffer_allocate (buf, cap, ch)` and
`gst_rubber_band_buffer_append (buf, x, n)`,
`gst_rubber_band_buffer_fetch (buf, out, n)` leaves `out[i] = x[i]` for
every `i < n * ch`. -/
theorem append_fetch_round_trip (fresh : Nat → Sample) (buf : GstRubberBandBuffer)
    (ch cap n : Int) (x out : List Sample) (hch : 1 ≤ ch) (hcap : 0 ≤ cap) (hn0 : 0 ≤ n)
    (hn : n ≤ cap) (hov : cap * ch ≤ INT_MAX) (hx : (x.length : Int) = n * ch)
    (hout : n * ch ≤ out.length) :
    ∀ i : Nat, i < x.length →
      (gst_rubber_band_buffer_fetch
          (gst_rubber_band_buffer_append (gst_rubber_band_buffer_allocate fresh buf cap ch) x n)
          out n)[i]? = x[i]? := by
  intro i hi
  obtain ⟨hlen, hload⟩ := round_trip_load fresh buf ch cap n x out hch hcap hn0 hn hov hout
  have hm : ((ch.toNat : Nat) : Int) = ch := Int.toNat_of_nonneg (by omega)
  have hmpos : 0 < ch.toNat := by omega
  have hdm : ch.toNat * (i / ch.toNat) + i % ch.toNat = i := Nat.div_add_mod i ch.toNat
  have hmod : i % ch.toNat < ch.toNat := Nat.mod_lt i hmpos
  have hdiv : ((i / ch.toNat : Nat) : Int) < n := by
    by_contra hge
    have h1 : n ≤ ((i / ch.toNat : Nat) : Int) := by omega
    have h2 : n * ch ≤ ((i / ch.toNat : Nat) : Int) * ch :=
      mul_le_mul_of_nonneg_right h1 (by omega)
    have h3 : ((i / ch.toNat : Nat) : Int) * ch + ((i % ch.toNat : Nat) : Int) = (i : Int) := by
      rw [← hm]
      exact_mod_cast (by rw [Nat.mul_comm]; exact hdm)
    omega
  have key := hload (i / ch.toNat) (i % ch.toNat) hdiv (by omega)
  have h3 : ((i / ch.toNat : Nat) : Int) * ch + ((i % ch.toNat : Nat) : Int) = (i : Int) := by
    rw [← hm]
    exact_mod_cast (by rw [Nat.mul_comm]; exact hdm)
  rw [h3] at key
  exact getElem?_eq_of_load_eq_of_lt i (by rw [hlen]; omega) hi key

/-- C1, an instance: three frames of two channels through a buffer of
capacity 4. -/
theorem append_fetch_round_trip_witness :
    (gst_rubber_band_buffer_fetch
        (gst_rubber_band_buffer_append
          (gst_rubber_band_buffer_allocate (fun _ => 9) GstRubberBandBuffer.init 4 2)
          [1, 2, 3, 4, 5, 6] 3)
        [0, 0, 0, 0, 0, 0, 0] 3)[5]? = ([1, 2, 3, 4, 5, 6] : List Sample)[5]? ∧
      gst_rubber_band_buffer_fetch
        (gst_rubber_band_buffer_append
          (gst_rubber_band_buffer_allocate (fun _ => 9) GstRubberBandBuffer.init 4 2)
          [1, 2, 3, 4, 5, 6] 3)
        [0, 0, 0, 0, 0, 0, 0] 3 = [1, 2, 3, 4, 5, 6, 0] :=
  ⟨append_fetch_round_trip (fun _ => 9) GstRubberBandBuffer.init 2 4 3 [1, 2, 3, 4, 5, 6]
    [0, 0, 0, 0, 0, 0, 0] (by decide) (by decide) (by decide) (by decide) (by decide)
    (by decide) (by decide) 5 (by decide), by decide⟩

/-! ## The drain loop -/

section Drain

variable {σ δ : Type} (E : Externals σ δ) (channels : Int)

theorem iterate_invariant (P : ChainState σ δ → Prop)
    (hstep : ∀ s, P s → P (drain_iter E channels s)) (s : ChainState σ δ) (h : P s) (j : Nat) :
    P ((drain_iter E channels)^[j] s) := by
  induction j with
  | zero => exact h
  | succ j ih =>
    rw [Function.iterate_succ_apply']
    exact hstep _ ih

theorem drain_loop_complete :
    ∀ (j : Nat) (s : ChainState σ δ),
      (∀ i, i < j → 0 < E.rubberband_available ((drain_iter E channels)^[i] s).st) →
      (∀ i, i + 1 < j → ((drain_iter E channels)^[i + 1] s).flow_return = GST_FLOW_OK) →
      ((E.rubberband_available ((drain_iter E channels)^[j] s).st ≤ 0 ∧
          (0 < j → ((drain_iter E channels)^[j] s).flow_return = GST_FLOW_OK)) ∨
        (0 < j ∧ ((drain_iter E channels)^[j] s).flow_return ≠ GST_FLOW_OK)) →
      ∀ fuel, j ≤ fuel → drain_loop E channels fuel s = some ((drain_iter E channels)^[j] s) := by
  intro j
  induction j with
  | zero =>
    intro s _ _ hstop fuel _
    have h0 : ¬ E.rubberband_available s.st > 0 := by
      rcases hstop with ⟨h, _⟩ | ⟨h, _⟩
      · simpa using h
      · omega
    cases fuel <;> simp [drain_loop, h0]
  | succ j ih =>
    intro s havail hflow hstop fuel hfuel
    obtain ⟨f, rfl⟩ : ∃ f, fuel = f + 1 := ⟨fuel - 1, by omega⟩
    have h0 : E.rubberband_available s.st > 0 := havail 0 (by omega)
    simp only [drain_loop, h0, if_true]
    by_cases hf : (drain_iter E channels s).flow_return = GST_FLOW_OK
    · rw [if_neg (by simpa using hf)]
      rw [Function.iterate_succ_apply]
      apply ih (drain_iter E channels s)
      · intro i hi
        have := havail (i + 1) (by omega)
        rwa [Function.iterate_succ_apply] at this
      · intro i hi
        have := hflow (i + 1) (by omega)
        rwa [Function.iterate_succ_apply] at this
      · rw [Function.iterate_succ_apply] at hstop
        rcases hstop with ⟨h1, h2⟩ | ⟨_, h2⟩
        · exact Or.inl ⟨h1, fun _ => h2 (by omega)⟩
        · refine Or.inr ⟨?_, h2⟩
          by_contra hj
          have hj0 : j = 0 := by omega
          subst hj0
          exact h2 hf
      · omega
    · rw [if_pos hf]
      have hj0 : j = 0 := by
        by_contra hj
        have := hflow 0 (by omega)
        exact hf this
      subst hj0
      rfl

theorem drain_loop_sound :
    ∀ (fuel : Nat) (s s' : ChainState σ δ), drain_loop E channels fuel s = some s' →
      ∃ j, j ≤ fuel ∧ s' = (drain_iter E channels)^[j] s ∧
        (∀ i, i < j → 0 < E.rubberband_available ((drain_iter E channels)^[i] s).st) ∧
        (∀ i, i + 1 < j → ((drain_iter E channels)^[i + 1] s).flow_return = GST_FLOW_OK) ∧
        ((E.rubberband_available s'.st ≤ 0 ∧ (0 < j → s'.flow_return = GST_FLOW_OK)) ∨
          (0 < j ∧ s'.flow_return ≠ GST_FLOW_OK)) := by
  intro fuel
  induction fuel with
  | zero =>
    intro s s' h
    simp only [drain_loop] at h
    split at h
    · exact absurd h (by simp)
    · rename_i h0
      have hs : s = s' := by simpa using h
      subst hs
      exact ⟨0, le_refl 0, rfl, fun i hi => by omega, fun i hi => by omega,
        Or.inl ⟨by omega, fun hj => by omega⟩⟩
  | succ f ih =>
    intro s s' h
    simp only [drain_loop] at h
    split at h
    · rename_i h0
      split at h
      · rename_i hf
        have hs : drain_iter E channels s = s' := by simpa using h
        subst hs
        refine ⟨1, by omega, rfl, ?_, fun i hi => by omega, Or.inr ⟨by omega, hf⟩⟩
        intro i hi
        have : i = 0 := by omega
        subst this
        exact h0
      · rename_i hf
        have hf2 : (drain_iter E channels s).flow_return = GST_FLOW_OK := by simpa using hf
        obtain ⟨j, hj, e, a1, a2, a3⟩ := ih _ _ h
        refine ⟨j + 1, by omega, by rw [Function.iterate_succ_apply]; exact e, ?_, ?_, ?_⟩
        · intro i hi
          cases i with
          | zero => exact h0
          | succ i =>
            rw [Function.iterate_succ_apply]
            exact a1 i (by omega)
        · intro i hi
          cases i with
          | zero => exact hf2
          | succ i =>
            rw [Function.iterate_succ_apply]
            exact a2 i (by omega)
        · rcases a3 with ⟨b1, b2⟩ | ⟨b1, b2⟩
          · refine Or.inl ⟨b1, fun _ => ?_⟩
            by_cases hj0 : 0 < j
            · exact b2 hj0
            · have : j = 0 := by omega
              subst this
              rw [e]
              exact hf2
          · exact Or.inr ⟨by omega, b2⟩
    · rename_i h0
      have hs : s = s' := by simpa using h
      subst hs
      exact ⟨0, by omega, rfl, fun i hi => by omega, fun i hi => by omega,
        Or.inl ⟨by omega, fun hj => by omega⟩⟩

end Drain

/-! ## The chain function -/

section Chain

variable {σ δ : Type} (E : Externals σ δ)

theorem required_eq_max (n : Int) : required_rb_inbuf_size n = max n 4096 := by
  unfold required_rb_inbuf_size INITIAL_MAX_PROCESS_SIZE
  split <;> omega

theorem input_frame_count_eq (ch : Int) (c : GstMapInfo) (hch : 1 ≤ ch) (hmax : ch ≤ INT_MAX)
    (hsize : c.size / ch.toNat / 4 ≤ 2147483647) :
    input_frame_count ch c = ((c.size / ch.toNat / 4 : Nat) : Int) := by
  unfold input_frame_count
  have h1 : to_size_t ch = ch.toNat := by
    unfold to_size_t
    unfold INT_MAX at hmax
    omega
  rw [h1]
  generalize c.size / ch.toNat / 4 = q at hsize
  exact wrap32_of_range (by omega) (by unfold INT_MAX; omega)

theorem chain_size_capacity (filter : GstRubberBand σ) (st0 : σ) (n : Int) :
    (chain_size E filter st0 n).1.frame_capacity
      = if max n 4096 ≤ filter.rb_inbuf.frame_capacity then filter.rb_inbuf.frame_capacity
        else max n 4096 := by
  unfold chain_size
  rw [required_eq_max]
  split
  · rename_i h
    rw [if_neg (by omega)]
    rfl
  · rename_i h
    rw [if_pos (by omega)]

theorem chain_feed_some (filter : GstRubberBand σ) (pad : δ) (inbuf : GstMapInfo)
    (s0 : ChainState σ δ) (h : chain_feed E filter pad inbuf = some s0) :
    to_size_t filter.info.channels ≠ 0 ∧
    ∃ st0, filter.rb_state = some st0 ∧
      s0.rb_inbuf = { chain_fill E filter st0 inbuf with frames_buffered := 0 } ∧
      s0.rb_outbuf = filter.rb_outbuf ∧
      s0.pad = pad ∧
      s0.calls = (chain_size E filter st0 (input_frame_count filter.info.channels inbuf)).2.2
        ++ [Call.process (chain_fill E filter st0 inbuf).frames_buffered] ∧
      s0.flow_return = GST_FLOW_OK := by
  unfold chain_feed at h
  split at h
  · exact absurd h (by simp)
  · rename_i hch
    refine ⟨hch, ?_⟩
    split at h
    · exact absurd h (by simp)
    · rename_i st0 hst
      refine ⟨st0, hst, ?_⟩
      simp only [Option.some.injEq] at h
      subst h
      exact ⟨rfl, rfl, rfl, rfl, rfl⟩

theorem chain_fill_fields (filter : GstRubberBand σ) (st0 : σ) (inbuf : GstMapInfo) :
    (chain_fill E filter st0 inbuf).frame_capacity
      = (chain_size E filter st0 (input_frame_count filter.info.channels inbuf)).1.frame_capacity ∧
    (chain_fill E filter st0 inbuf).channels
      = (chain_size E filter st0 (input_frame_count filter.info.channels inbuf)).1.channels := by
  unfold chain_fill
  exact ⟨(append_fields _ _ _).2.1, (append_fields _ _ _).1⟩

theorem chain_sound (fuel : Nat) (filter : GstRubberBand σ) (pad : δ) (inbuf : GstMapInfo)
    (r : ChainResult σ δ) (h : gst_rubber_band_chain E fuel filter pad inbuf = some r) :
    ∃ s0 j, chain_feed E filter pad inbuf = some s0 ∧ j ≤ fuel ∧
      r = chain_result filter ((drain_iter E filter.info.channels)^[j] s0) ∧
      (∀ i, i < j →
        0 < E.rubberband_available ((drain_iter E filter.info.channels)^[i] s0).st) ∧
      (∀ i, i + 1 < j →
        ((drain_iter E filter.info.channels)^[i + 1] s0).flow_return = GST_FLOW_OK) ∧
      ((E.rubberband_available ((drain_iter E filter.info.channels)^[j] s0).st ≤ 0 ∧
          (0 < j →
            ((drain_iter E filter.info.channels)^[j] s0).flow_return = GST_FLOW_OK)) ∨
        (0 < j ∧ ((drain_iter E filter.info.channels)^[j] s0).flow_return ≠ GST_FLOW_OK)) := by
  unfold gst_rubber_band_chain at h
  split at h
  · exact absurd h (by simp)
  · rename_i s0 hs0
    refine ⟨s0, ?_⟩
    split at h
    · rename_i h0
      simp only [Option.some.injEq] at h
      exact ⟨0, hs0, by omega, h.symm, fun i hi => by omega, fun i hi => by omega,
        Or.inl ⟨by simp [h0], fun hj => by omega⟩⟩
    · simp only [Option.map_eq_some'] at h
      obtain ⟨s', hs', hr⟩ := h
      obtain ⟨j, hj, e, a1, a2, a3⟩ := drain_loop_sound E filter.info.channels fuel s0 s' hs'
      subst e
      exact ⟨j, hs0, hj, hr.symm, a1, a2, a3⟩

theorem drain_iter_capacity (channels : Int) (s : ChainState σ δ) :
    (drain_iter E channels s).rb_outbuf.frame_capacity
      = max s.rb_outbuf.frame_capacity (E.rubberband_available s.st) := by
  show (drain_retrieve E channels s).frame_capacity = _
  unfold drain_retrieve
  simp only
  split
  · rename_i h
    simp only [gst_rubber_band_buffer_allocate]
    omega
  · rename_i h
    omega

theorem iterate_rb_inbuf (channels : Int) (s : ChainState σ δ) (j : Nat) :
    ((drain_iter E channels)^[j] s).rb_inbuf = s.rb_inbuf :=
  iterate_invariant E channels (fun t => t.rb_inbuf = s.rb_inbuf) (fun _ h => h) s rfl j

theorem iterate_capacity (channels : Int) (s : ChainState σ δ) (j : Nat) :
    s.rb_outbuf.frame_capacity ≤ ((drain_iter E channels)^[j] s).rb_outbuf.frame_capacity :=
  iterate_invariant E channels
    (fun t => s.rb_outbuf.frame_capacity ≤ t.rb_outbuf.frame_capacity)
    (fun t h => by
      show s.rb_outbuf.frame_capacity ≤ (drain_iter E channels t).rb_outbuf.frame_capacity
      have h2 : s.rb_outbuf.frame_capacity ≤ t.rb_outbuf.frame_capacity := h
      rw [drain_iter_capacity]
      omega) s (le_refl _) j

end Chain

/-! ## C5: capacities only grow -/

theorem chain_capacity_step {σ δ : Type} (E : Externals σ δ) (fuel : Nat)
    (filter : GstRubberBand σ) (pad : δ) (inbuf : GstMapInfo) (r : ChainResult σ δ)
    (h : gst_rubber_band_chain E fuel filter pad inbuf = some r) :
    r.filter.rb_inbuf.frame_capacity
        = (if max (input_frame_count filter.info.channels inbuf) 4096
              ≤ filter.rb_inbuf.frame_capacity
            then filter.rb_inbuf.frame_capacity
            else max (input_frame_count filter.info.channels inbuf) 4096) ∧
      filter.rb_outbuf.frame_capacity ≤ r.filter.rb_outbuf.frame_capacity := by
  obtain ⟨s0, j, hs0, _, hr, _, _, _⟩ := chain_sound E fuel filter pad inbuf r h
  obtain ⟨_, st0, _, e1, hout, _, _, _⟩ := chain_feed_some E filter pad inbuf s0 hs0
  have hin : s0.rb_inbuf.frame_capacity
      = (chain_size E filter st0 (input_frame_count filter.info.channels inbuf)).1.frame_capacity := by
    rw [e1]
    exact (chain_fill_fields E filter st0 inbuf).1
  subst hr
  constructor
  · show ((drain_iter E filter.info.channels)^[j] s0).rb_inbuf.frame_capacity = _
    rw [iterate_rb_inbuf, hin, chain_size_capacity]
  · show _ ≤ ((drain_iter E filter.info.channels)^[j] s0).rb_outbuf.frame_capacity
    rw [← hout]
    exact iterate_capacity E filter.info.channels s0 j

/-- C5, as stated, fails for a chunk of 2147483648 frames: with 1 channel
negotiated, an input buffer of capacity 0 and a chunk of 8589934592 bytes
(`n = byteSize / ch / 4 = 2147483648` frames), the chunk is appended to an
input buffer of capacity 4096 and `gst_rubber_band_chain` returns with that
capacity, not with `max n 4096 = 2147483648`: the frame count the code
sizes the buffer with is the `int` -2147483648. -/
theorem chain_capacity_counterexample :
    hugeChunk.size / (1 : Int).toNat / 4 = 2147483648 ∧
    (gst_rubber_band_sink_event latent (gst_rubber_band_init Unit) ()
        (GstEvent.CAPS (some mono))).1.info.channels = 1 ∧
    (gst_rubber_band_sink_event latent (gst_rubber_band_init Unit) ()
        (GstEvent.CAPS (some mono))).1.rb_inbuf.frame_capacity = 0 ∧
    (chain_fill latent
        (gst_rubber_band_sink_event latent (gst_rubber_band_init Unit) ()
          (GstEvent.CAPS (some mono))).1 () hugeChunk).frame_capacity = 4096 ∧
    (gst_rubber_band_chain latent 1
        (gst_rubber_band_sink_event latent (gst_rubber_band_init Unit) ()
          (GstEvent.CAPS (some mono))).1 () hugeChunk).map
      (fun r => r.filter.rb_inbuf.frame_capacity) = some 4096 ∧
    max (2147483648 : Int) 4096 = 2147483648 := by
  decide

/-- C5, amended. For every element state with `1 ≤ channels ≤ INT_MAX`
negotiated and every chunk of `n = byteSize / channels / 4` frames with
`n ≤ INT_MAX`: the input buffer that the chunk is appended to has the old
capacity when that was already at least `max n 4096` and the capacity
`max n 4096` otherwise, which is at least `max n 4096` in both cases, and a
call of `gst_rubber_band_chain` that returns leaves the input buffer with
that capacity.  For every element state and every chunk, of any size:
every iteration of the drain loop leaves the output buffer with the
capacity `max (old capacity) (rubberband_available)`; over every sequence
of chunks the capacities of both buffers never decrease from one call to
the next; and the input capacity follows the rule above with the `int`
`input_frame_count` of the code in the place of `n`. -/
theorem chain_capacity {σ δ : Type} (E : Externals σ δ) :
    (∀ (filter : GstRubberBand σ) (st0 : σ) (inbuf : GstMapInfo),
      1 ≤ filter.info.channels → filter.info.channels ≤ INT_MAX →
      inbuf.size / filter.info.channels.toNat / 4 ≤ 2147483647 →
      (chain_fill E filter st0 inbuf).frame_capacity
          = (if max ((inbuf.size / filter.info.channels.toNat / 4 : Nat) : Int) 4096
                ≤ filter.rb_inbuf.frame_capacity
              then filter.rb_inbuf.frame_capacity
              else max ((inbuf.size / filter.info.channels.toNat / 4 : Nat) : Int) 4096) ∧
        max ((inbuf.size / filter.info.channels.toNat / 4 : Nat) : Int) 4096
          ≤ (chain_fill E filter st0 inbuf).frame_capacity) ∧
    (∀ (fuel : Nat) (filter : GstRubberBand σ) (pad : δ) (inbuf : GstMapInfo)
        (r : ChainResult σ δ),
      1 ≤ filter.info.channels → filter.info.channels ≤ INT_MAX →
      inbuf.size / filter.info.channels.toNat / 4 ≤ 2147483647 →
      gst_rubber_band_chain E fuel filter pad inbuf = some r →
      r.filter.rb_inbuf.frame_capacity
          = (if max ((inbuf.size / filter.info.channels.toNat / 4 : Nat) : Int) 4096
                ≤ filter.rb_inbuf.frame_capacity
              then filter.rb_inbuf.frame_capacity
              else max ((inbuf.size / filter.info.channels.toNat / 4 : Nat) : Int) 4096)) ∧
    (∀ (channels : Int) (s : ChainState σ δ),
      (drain_iter E channels s).rb_outbuf.frame_capacity
        = max s.rb_outbuf.frame_capacity (E.rubberband_available s.st)) ∧
    (∀ (fuel : Nat) (chunks : List GstMapInfo) (filter : GstRubberBand σ) (pad : δ)
        (rs : List (ChainResult σ δ)), chain_seq E fuel filter pad chunks = some rs →
      List.Chain (fun a b => a ≤ b) filter.rb_inbuf.frame_capacity
          (rs.map (fun r => r.filter.rb_inbuf.frame_capacity)) ∧
        List.Chain (fun a b => a ≤ b) filter.rb_outbuf.frame_capacity
          (rs.map (fun r => r.filter.rb_outbuf.frame_capacity))) ∧
    (∀ (filter : GstRubberBand σ) (st0 : σ) (n : Int),
      (chain_size E filter st0 n).1.frame_capacity
          = (if max n 4096 ≤ filter.rb_inbuf.frame_capacity then filter.rb_inbuf.frame_capacity
            else max n 4096) ∧
        max n 4096 ≤ (chain_size E filter st0 n).1.frame_capacity) ∧
    (∀ (fuel : Nat) (filter : GstRubberBand σ) (pad : δ) (inbuf : GstMapInfo)
        (r : ChainResult σ δ), gst_rubber_band_chain E fuel filter pad inbuf = some r →
      r.filter.rb_inbuf.frame_capacity
          = (if max (input_frame_count filter.info.channels inbuf) 4096
                ≤ filter.rb_inbuf.frame_capacity
              then filter.rb_inbuf.frame_capacity
              else max (input_frame_count filter.info.channels inbuf) 4096) ∧
        filter.rb_inbuf.frame_capacity ≤ r.filter.rb_inbuf.frame_capacity ∧
        filter.rb_outbuf.frame_capacity ≤ r.filter.rb_outbuf.frame_capacity) ∧
    (∀ (channels : Int) (inbuf : GstMapInfo), 1 ≤ channels → channels ≤ INT_MAX →
      inbuf.size / channels.toNat / 4 ≤ 2147483647 →
      input_frame_count channels inbuf = ((inbuf.size / channels.toNat / 4 : Nat) : Int)) := by
  refine ⟨?_, ?_, drain_iter_capacity E, ?_, ?_, ?_, input_frame_count_eq⟩
  · intro filter st0 inbuf hch hmax hsize
    rw [(chain_fill_fields E filter st0 inbuf).1, chain_size_capacity,
      input_frame_count_eq filter.info.channels inbuf hch hmax hsize]
    refine ⟨rfl, ?_⟩
    split <;> omega
  · intro fuel filter pad inbuf r hch hmax hsize h
    rw [(chain_capacity_step E fuel filter pad inbuf r h).1,
      input_frame_count_eq filter.info.channels inbuf hch hmax hsize]
  · intro fuel chunks
    induction chunks with
    | nil =>
      intro filter pad rs h
      simp only [chain_seq, Option.some.injEq] at h
      subst h
      exact ⟨List.Chain.nil, List.Chain.nil⟩
    | cons inbuf rest ih =>
      intro filter pad rs h
      simp only [chain_seq] at h
      split at h
      · exact absurd h (by simp)
      · rename_i r hr
        simp only [Option.map_eq_some'] at h
        obtain ⟨rs', hrs', e⟩ := h
        subst e
        obtain ⟨i1, i2⟩ := ih r.filter r.pad rs' hrs'
        obtain ⟨h1, h2⟩ := chain_capacity_step E fuel filter pad inbuf r hr
        refine ⟨List.Chain.cons ?_ i1, List.Chain.cons h2 i2⟩
        show filter.rb_inbuf.frame_capacity ≤ r.filter.rb_inbuf.frame_capacity
        rw [h1]
        split <;> omega
  · intro filter st0 n
    rw [chain_size_capacity]
    refine ⟨rfl, ?_⟩
    split <;> omega
  · intro fuel filter pad inbuf r h
    obtain ⟨h1, h2⟩ := chain_capacity_step E fuel filter pad inbuf r h
    refine ⟨h1, ?_, h2⟩
    rw [h1]
    split <;> omega

/-- C5, an instance: a chunk of 2 stereo frames through a newly negotiated
element whose engine then has one batch of 2 frames ready.  The input
buffer gets the capacity 4096, the output buffer the capacity 2. -/
theorem chain_capacity_witness :
    (gst_rubber_band_chain (scripted [⟨2, [[1, 2], [3, 4]], 2⟩]) 4
        (negotiated [⟨2, [[1, 2], [3, 4]], 2⟩] stereo) [] ⟨[1, 2, 3, 4], 16⟩).isSome = true ∧
      (∀ r, gst_rubber_band_chain (scripted [⟨2, [[1, 2], [3, 4]], 2⟩]) 4
          (negotiated [⟨2, [[1, 2], [3, 4]], 2⟩] stereo) [] ⟨[1, 2, 3, 4], 16⟩ = some r →
        r.filter.rb_inbuf.frame_capacity = 4096) ∧
      ((gst_rubber_band_chain (scripted [⟨2, [[1, 2], [3, 4]], 2⟩]) 4
        (negotiated [⟨2, [[1, 2], [3, 4]], 2⟩] stereo) [] ⟨[1, 2, 3, 4], 16⟩).map
          (fun r => r.filter.rb_outbuf.frame_capacity)) = some 2 :=
  ⟨by decide,
    fun r h => ((chain_capacity (scripted [⟨2, [[1, 2], [3, 4]], 2⟩])).2.1 4
      (negotiated [⟨2, [[1, 2], [3, 4]], 2⟩] stereo) [] ⟨[1, 2, 3, 4], 16⟩ r
      (by decide) (by decide) (by decide) h).trans (by decide),
    by decide⟩

/-! ## C6: the result of the drain loop -/

theorem pushes_append (a b : List Call) : pushes (a ++ b) = pushes a ++ pushes b := by
  induction a with
  | nil => rfl
  | cons c a ih => cases c <;> simp [pushes, ih]

theorem retrieves_append (a b : List Call) :
    retrieves (a ++ b) = retrieves a ++ retrieves b := by
  induction a with
  | nil => rfl
  | cons c a ih => cases c <;> simp [retrieves, ih]

section DrainCalls

variable {σ δ : Type} (E : Externals σ δ) (channels : Int)

theorem drain_iter_pushes (s : ChainState σ δ) :
    pushes (drain_iter E channels s).calls
      = pushes s.calls ++ [(drain_chunk E channels s, (drain_iter E channels s).flow_return)] := by
  simp only [drain_iter, pushes_append]
  split <;> simp [pushes]

theorem drain_iter_retrieves (s : ChainState σ δ) :
    retrieves (drain_iter E channels s).calls
      = retrieves s.calls ++ [(E.rubberband_available s.st,
          (E.rubberband_retrieve s.st (E.rubberband_available s.st)).2.1,
          (E.rubberband_retrieve s.st (E.rubberband_available s.st)).2.2)] := by
  simp only [drain_iter, retrieves_append]
  split <;> simp [retrieves]

theorem drain_iter_last_call (s : ChainState σ δ) :
    (drain_iter E channels s).calls.getLast?
      = some (Call.push (drain_chunk E channels s) (drain_iter E channels s).flow_return) := by
  simp [drain_iter]

theorem iterate_pushes (s : ChainState σ δ) (j : Nat) :
    (pushes ((drain_iter E channels)^[j] s).calls).map Prod.snd
      = (pushes s.calls).map Prod.snd
        ++ (List.range j).map (fun i => ((drain_iter E channels)^[i + 1] s).flow_return) := by
  induction j with
  | zero => simp
  | succ j ih =>
    rw [Function.iterate_succ_apply', drain_iter_pushes, List.map_append, ih, List.range_succ,
      List.map_append, List.append_assoc]
    simp [Function.iterate_succ_apply']

theorem iterate_counts (s : ChainState σ δ) (j : Nat) :
    (pushes ((drain_iter E channels)^[j] s).calls).length = (pushes s.calls).length + j ∧
      (retrieves ((drain_iter E channels)^[j] s).calls).length
        = (retrieves s.calls).length + j := by
  induction j with
  | zero => simp
  | succ j ih =>
    rw [Function.iterate_succ_apply', drain_iter_pushes, drain_iter_retrieves]
    simp only [List.length_append, List.length_singleton]
    omega

end DrainCalls

theorem chain_feed_calls {σ δ : Type} (E : Externals σ δ) (filter : GstRubberBand σ) (pad : δ)
    (inbuf : GstMapInfo) (s0 : ChainState σ δ) (h : chain_feed E filter pad inbuf = some s0) :
    pushes s0.calls = [] ∧ retrieves s0.calls = [] ∧ s0.flow_return = GST_FLOW_OK := by
  obtain ⟨_, st0, _, _, _, _, hc, hf⟩ := chain_feed_some E filter pad inbuf s0 h
  rw [hc, pushes_append, retrieves_append]
  refine ⟨?_, ?_, hf⟩
  · unfold chain_size
    split <;> simp [pushes]
  · unfold chain_size
    split <;> simp [retrieves]

theorem chain_complete {σ δ : Type} (E : Externals σ δ) (filter : GstRubberBand σ) (pad : δ)
    (inbuf : GstMapInfo) (s0 : ChainState σ δ) (h : chain_feed E filter pad inbuf = some s0)
    (j : Nat)
    (havail : ∀ i, i < j →
      0 < E.rubberband_available ((drain_iter E filter.info.channels)^[i] s0).st)
    (hflow : ∀ i, i + 1 < j →
      ((drain_iter E filter.info.channels)^[i + 1] s0).flow_return = GST_FLOW_OK)
    (hstop : (E.rubberband_available ((drain_iter E filter.info.channels)^[j] s0).st ≤ 0 ∧
        (0 < j → ((drain_iter E filter.info.channels)^[j] s0).flow_return = GST_FLOW_OK)) ∨
      (0 < j ∧ ((drain_iter E filter.info.channels)^[j] s0).flow_return ≠ GST_FLOW_OK))
    (fuel : Nat) (hfuel : j ≤ fuel) :
    gst_rubber_band_chain E fuel filter pad inbuf
      = some (chain_result filter ((drain_iter E filter.info.channels)^[j] s0)) := by
  unfold gst_rubber_band_chain
  rw [h]
  simp only
  split
  · rename_i h0
    have hj : j = 0 := by
      by_contra hne
      have := havail 0 (by omega)
      simp only [Function.iterate_zero, id_eq] at this
      omega
    subst hj
    rfl
  · rw [drain_loop_complete E filter.info.channels j s0 havail hflow hstop fuel hfuel]
    rfl

/-- C6. Let `s0` be the state of `gst_rubber_band_chain` after
`rubberband_process`, and `D` one iteration of the drain loop.

1. When the engine reports 0 frames available in `s0`, the call returns
   `GST_FLOW_OK` and has made no retrieve and no push.
2. When the first `j` iterations found frames available and had their push
   return `GST_FLOW_OK`, then `j` retrieves and `j` pushes have been made,
   and
   * if the next iteration finds frames available and its push returns a
     result other than `GST_FLOW_OK`, the call returns that result in the
     state just after this push, with `j + 1` retrieves and `j + 1` pushes
     made, the last call being the failed push;
   * if nothing is available any more, the call returns `GST_FLOW_OK` after
     these `j` retrieves and pushes.
3. Every result `r` of the call has as many retrieves as pushes; every push
   but the last returned `GST_FLOW_OK`; `r.ret` is the result of the last
   push (`GST_FLOW_OK` without a push); when `r.ret` is `GST_FLOW_OK` the
   engine has nothing available any more, and otherwise the failed push is
   the last call made. -/
theorem chain_drain_result {σ δ : Type} (E : Externals σ δ) (filter : GstRubberBand σ)
    (pad : δ) (inbuf : GstMapInfo) (s0 : ChainState σ δ)
    (h : chain_feed E filter pad inbuf = some s0) :
    (E.rubberband_available s0.st = 0 → ∀ fuel, ∃ r,
      gst_rubber_band_chain E fuel filter pad inbuf = some r ∧ r.ret = GST_FLOW_OK ∧
        pushes r.calls = [] ∧ retrieves r.calls = []) ∧
    (∀ j : Nat,
      (∀ i, i < j →
        0 < E.rubberband_available ((drain_iter E filter.info.channels)^[i] s0).st ∧
          ((drain_iter E filter.info.channels)^[i + 1] s0).flow_return = GST_FLOW_OK) →
      (pushes ((drain_iter E filter.info.channels)^[j] s0).calls).length = j ∧
      (retrieves ((drain_iter E filter.info.channels)^[j] s0).calls).length = j ∧
      (0 < E.rubberband_available ((drain_iter E filter.info.channels)^[j] s0).st →
        ((drain_iter E filter.info.channels)^[j + 1] s0).flow_return ≠ GST_FLOW_OK →
        ∀ fuel, j + 1 ≤ fuel → ∃ r,
          gst_rubber_band_chain E fuel filter pad inbuf = some r ∧
            r = chain_result filter ((drain_iter E filter.info.channels)^[j + 1] s0) ∧
            r.ret = ((drain_iter E filter.info.channels)^[j + 1] s0).flow_return ∧
            (pushes r.calls).length = j + 1 ∧ (retrieves r.calls).length = j + 1 ∧
            ∃ chunk, r.calls.getLast? = some (Call.push chunk r.ret)) ∧
      (E.rubberband_available ((drain_iter E filter.info.channels)^[j] s0).st ≤ 0 →
        ∀ fuel, j ≤ fuel → ∃ r,
          gst_rubber_band_chain E fuel filter pad inbuf = some r ∧
            r = chain_result filter ((drain_iter E filter.info.channels)^[j] s0) ∧
            r.ret = GST_FLOW_OK ∧
            (pushes r.calls).length = j ∧ (retrieves r.calls).length = j)) ∧
    (∀ (fuel : Nat) (r : ChainResult σ δ),
      gst_rubber_band_chain E fuel filter pad inbuf = some r →
      (retrieves r.calls).length = (pushes r.calls).length ∧
      (∀ i : Nat, i + 1 < (pushes r.calls).length →
        ((pushes r.calls).map Prod.snd)[i]? = some GST_FLOW_OK) ∧
      r.ret = (((pushes r.calls).map Prod.snd).getLast?).getD GST_FLOW_OK ∧
      (r.ret = GST_FLOW_OK →
        ∀ st, r.filter.rb_state = some st → E.rubberband_available st ≤ 0) ∧
      (r.ret ≠ GST_FLOW_OK → ∃ chunk, r.calls.getLast? = some (Call.push chunk r.ret))) := by
  obtain ⟨hp0, hr0, hf0⟩ := chain_feed_calls E filter pad inbuf s0 h
  refine ⟨?_, ?_, ?_⟩
  · intro h0 fuel
    refine ⟨chain_result filter s0, ?_, hf0, hp0, hr0⟩
    exact chain_complete E filter pad inbuf s0 h 0 (fun i hi => by omega)
      (fun i hi => by omega) (Or.inl ⟨by simp [h0], fun hj => by omega⟩) fuel (by omega)
  · intro j hj
    obtain ⟨c1, c2⟩ := iterate_counts E filter.info.channels s0 j
    obtain ⟨d1, d2⟩ := iterate_counts E filter.info.channels s0 (j + 1)
    rw [hp0] at c1 d1
    rw [hr0] at c2 d2
    simp only [List.length_nil, Nat.zero_add] at c1 c2 d1 d2
    refine ⟨c1, c2, ?_, ?_⟩
    · intro hav hfl fuel hfuel
      refine ⟨_, chain_complete E filter pad inbuf s0 h (j + 1) ?_ ?_ (Or.inr ⟨by omega, hfl⟩)
        fuel hfuel, rfl, rfl, d1, d2, ?_⟩
      · intro i hi
        by_cases hij : i = j
        · subst hij
          exact hav
        · exact (hj i (by omega)).1
      · intro i hi
        exact (hj i (by omega)).2
      · refine ⟨drain_chunk E filter.info.channels
          ((drain_iter E filter.info.channels)^[j] s0), ?_⟩
        show ((drain_iter E filter.info.channels)^[j + 1] s0).calls.getLast? = _
        rw [Function.iterate_succ_apply', drain_iter_last_call]
        rfl
    · intro hav fuel hfuel
      refine ⟨_, chain_complete E filter pad inbuf s0 h j (fun i hi => (hj i hi).1)
        (fun i hi => (hj i (by omega)).2) (Or.inl ⟨hav, fun h0 => ?_⟩) fuel hfuel, rfl, ?_,
        c1, c2⟩
      · obtain ⟨k, rfl⟩ : ∃ k, j = k + 1 := ⟨j - 1, by omega⟩
        exact (hj k (by omega)).2
      · show ((drain_iter E filter.info.channels)^[j] s0).flow_return = GST_FLOW_OK
        cases j with
        | zero => exact hf0
        | succ k => exact (hj k (by omega)).2
  · intro fuel r hr
    obtain ⟨s0', j, hs0', _, e, a1, a2, a3⟩ := chain_sound E fuel filter pad inbuf r hr
    have hs : s0' = s0 := by
      rw [h] at hs0'
      exact (Option.some.inj hs0').symm
    subst hs
    subst e
    obtain ⟨c1, c2⟩ := iterate_counts E filter.info.channels s0' j
    have hm := iterate_pushes E filter.info.channels s0' j
    rw [hp0] at c1 hm
    rw [hr0] at c2
    simp only [List.length_nil, Nat.zero_add, List.map_nil, List.nil_append] at c1 c2 hm
    have hret : (chain_result filter ((drain_iter E filter.info.channels)^[j] s0')).ret
        = ((drain_iter E filter.info.channels)^[j] s0').flow_return := rfl
    have hcalls : (chain_result filter ((drain_iter E filter.info.channels)^[j] s0')).calls
        = ((drain_iter E filter.info.channels)^[j] s0').calls := rfl
    rw [hret, hcalls, hm]
    refine ⟨by rw [c1, c2], ?_, ?_, ?_, ?_⟩
    · intro i hi
      rw [c1] at hi
      rw [List.getElem?_map, List.getElem?_range (by omega)]
      simp only [Option.map_some']
      rw [a2 i hi]
    · cases j with
      | zero => simpa using hf0
      | succ k => simp [List.range_succ]
    · intro hok st hst
      have hst2 : st = ((drain_iter E filter.info.channels)^[j] s0').st := by
        have : (chain_result filter ((drain_iter E filter.info.channels)^[j] s0')).filter.rb_state
            = some ((drain_iter E filter.info.channels)^[j] s0').st := rfl
        rw [this] at hst
        exact (Option.some.inj hst).symm
      rw [hst2]
      rcases a3 with ⟨b1, _⟩ | ⟨_, b2⟩
      · exact b1
      · exact absurd hok b2
    · intro hne
      rcases a3 with ⟨_, b2⟩ | ⟨b1, _⟩
      · cases j with
        | zero => exact absurd hf0 hne
        | succ k => exact absurd (b2 (by omega)) hne
      · obtain ⟨k, rfl⟩ : ∃ k, j = k + 1 := ⟨j - 1, by omega⟩
        refine ⟨drain_chunk E filter.info.channels
          ((drain_iter E filter.info.channels)^[k] s0'), ?_⟩
        rw [Function.iterate_succ_apply', drain_iter_last_call]

/-- C6, an instance: the engine has three batches ready and the second
push returns 7.  The call returns 7 after two retrieves and two pushes; the
third batch stays in the engine. -/
theorem chain_drain_result_witness :
    (gst_rubber_band_chain
        (scripted [⟨2, [[1, 2], [3, 4]], 2⟩, ⟨1, [[5], [6]], 1⟩, ⟨1, [[7], [8]], 1⟩]) 5
        (negotiated [⟨2, [[1, 2], [3, 4]], 2⟩, ⟨1, [[5], [6]], 1⟩, ⟨1, [[7], [8]], 1⟩] stereo)
        [0, 7] ⟨[1, 2, 3, 4], 16⟩).map
      (fun r => (r.ret, pushes r.calls, (retrieves r.calls).length, r.filter.rb_state))
      = some (7, [([1, 3, 2, 4], 0), ([5, 6], 7)], 2, some [⟨1, [[7], [8]], 1⟩]) := by
  have hfeed : chain_feed
      (scripted [⟨2, [[1, 2], [3, 4]], 2⟩, ⟨1, [[5], [6]], 1⟩, ⟨1, [[7], [8]], 1⟩])
      (negotiated [⟨2, [[1, 2], [3, 4]], 2⟩, ⟨1, [[5], [6]], 1⟩, ⟨1, [[7], [8]], 1⟩] stereo)
      [0, 7] ⟨[1, 2, 3, 4], 16⟩
      = some ((chain_feed
        (scripted [⟨2, [[1, 2], [3, 4]], 2⟩, ⟨1, [[5], [6]], 1⟩, ⟨1, [[7], [8]], 1⟩])
        (negotiated [⟨2, [[1, 2], [3, 4]], 2⟩, ⟨1, [[5], [6]], 1⟩, ⟨1, [[7], [8]], 1⟩] stereo)
        [0, 7] ⟨[1, 2, 3, 4], 16⟩).get (by decide)) := (Option.some_get _).symm
  obtain ⟨r, hr, e, _⟩ := ((chain_drain_result _ _ _ _ _ hfeed).2.1 1 (by decide)).2.2.1
    (by decide) (by decide) 5 (by decide)
  rw [hr, e]
  rfl

/-! ## C7: what a drain iteration emits -/

theorem retrieve_into_eq_rows (buf : GstRubberBandBuffer) (written : List (List Sample)) :
    retrieve_into buf written = retrieve_rows buf written written.length := rfl

theorem retrieve_rows_succ (buf : GstRubberBandBuffer) (written : List (List Sample)) (n : Nat) :
    retrieve_rows buf written (n + 1)
      = writes (retrieve_rows buf written n)
          (fun i => buf.channel_data.getD n 0 + (i : Int))
          (fun i => (written.getD n []).getD i 0) (written.getD n []).length := by
  simp [retrieve_rows, List.range_succ, List.foldl_append]

theorem retrieve_rows_spec (buf : GstRubberBandBuffer) (written : List (List Sample))
    (hl : AllocLayout buf) (k : Nat) (hk : (k : Int) ≤ buf.frame_capacity)
    (hw : ∀ w ∈ written, w.length = k) :
    ∀ n : Nat, n ≤ written.length → (n : Int) ≤ buf.channels →
      (retrieve_rows buf written n).length = buf.data.length ∧
      (∀ (c i : Nat), c < n → i < k →
        load (retrieve_rows buf written n) ((c : Int) * buf.frame_capacity + (i : Int))
          = (written.getD c []).getD i 0) := by
  intro n
  induction n with
  | zero =>
    intro _ _
    exact ⟨rfl, fun c i hc _ => by omega⟩
  | succ n ih =>
    intro hn hch
    obtain ⟨i1, i2⟩ := ih (by omega) (by omega)
    have hlen : (written.getD n []).length = k := by
      apply hw
      rw [List.getD_eq_getElem?_getD, List.getElem?_eq_getElem (by omega)]
      exact List.getElem_mem _
    have hview : buf.channel_data.getD n 0 = (n : Int) * buf.frame_capacity :=
      layout_view hl (by omega)
    rw [retrieve_rows_succ, hlen, hview]
    refine ⟨by rw [length_writes, i1], ?_⟩
    intro c i hc hi
    by_cases hcn : c = n
    · subst hcn
      have key := load_writes_same (retrieve_rows buf written c)
        (fun i => (c : Int) * buf.frame_capacity + (i : Int))
        (fun i => (written.getD c []).getD i 0) k
        (by
          intro a b _ _ hab
          beta_reduce at hab
          omega)
        (by
          intro a ha
          beta_reduce
          rw [i1]
          refine ⟨idx_nonneg (by omega) hl.2.1, ?_⟩
          have := @idx_lt buf.frame_capacity buf.channels (a : Int) c
            (by omega) (by omega) hl.2.1
          rw [hl.2.2.2]
          exact this)
        i hi
      exact key
    · rw [load_writes_other]
      · exact i2 c i (by omega) hi
      · intro a ha
        beta_reduce
        intro he
        have := (@idx_inj buf.frame_capacity (a : Int) (i : Int) n c
          (by omega) (by omega) (by omega) (by omega) he).1
        omega

theorem malloc_floats_length (fresh : Nat → Sample) (p : Int) (h0 : 0 ≤ p) (h1 : p ≤ INT_MAX) :
    ((malloc_floats fresh (to_size_t (wrap32 p) * 4 % 18446744073709551616)).length : Int)
      = p := by
  rw [wrap32_of_range (by omega) h1]
  have h3 := to_size_t_of_nonneg h0 h1
  unfold INT_MAX at h1
  have h4 : to_size_t p * 4 % 18446744073709551616 = to_size_t p * 4 := by omega
  unfold malloc_floats
  rw [h4, if_pos (by unfold PTRDIFF_MAX; omega)]
  simp only [List.length_map, List.length_range]
  omega

theorem list_ext_load {a b : List Sample} (hlen : a.length = b.length)
    (h : ∀ j : Nat, j < a.length → load a (j : Int) = load b (j : Int)) : a = b := by
  apply List.ext_getElem?
  intro j
  by_cases hj : j < a.length
  · exact getElem?_eq_of_load_eq hlen j (h j hj)
  · rw [List.getElem?_eq_none (by omega), List.getElem?_eq_none (by omega)]

theorem length_interleave (m k : Nat) (written : List (List Sample)) :
    (interleave m k written).length = k * m := by
  simp [interleave]

theorem load_interleave (m k : Nat) (written : List (List Sample)) (i : Nat) (hi : i < k * m) :
    load (interleave m k written) (i : Int) = (written.getD (i % m) []).getD (i / m) 0 := by
  unfold load interleave
  simp only [Int.ofNat_zero_le, if_true, Int.toNat_ofNat, List.getD_eq_getElem?_getD]
  rw [List.getElem?_map, List.getElem?_range hi]
  simp [List.getD_eq_getElem?_getD]

theorem drain_chunk_exact {σ δ : Type} (E : Externals σ δ) (channels : Int)
    (s : ChainState σ δ) (hch : 1 ≤ channels) (hav : 0 < E.rubberband_available s.st)
    (hov : E.rubberband_available s.st * channels ≤ INT_MAX)
    (hfit : OutputFit channels s.rb_outbuf)
    (hq : ExactRetrieve channels (E.rubberband_available s.st,
      (E.rubberband_retrieve s.st (E.rubberband_available s.st)).2.1,
      (E.rubberband_retrieve s.st (E.rubberband_available s.st)).2.2)) :
    drain_chunk E channels s
        = interleave channels.toNat (E.rubberband_available s.st).toNat
          (E.rubberband_retrieve s.st (E.rubberband_available s.st)).2.1 ∧
      AllocLayout (drain_retrieve E channels s) ∧
      (drain_retrieve E channels s).channels = channels := by
  obtain ⟨_, hq2, hq3⟩ := hq
  simp only at hq2 hq3
  generalize hofc : E.rubberband_available s.st = ofc at *
  generalize hwr : (E.rubberband_retrieve s.st ofc).2.1 = written at *
  -- the buffer the engine writes into
  have hout1 : ∃ out1, (if s.rb_outbuf.frame_capacity < ofc then
        gst_rubber_band_buffer_allocate E.fresh s.rb_outbuf ofc channels
      else s.rb_outbuf) = out1 ∧ AllocLayout out1 ∧ out1.channels = channels ∧
        ofc ≤ out1.frame_capacity := by
    refine ⟨_, rfl, ?_⟩
    split
    · exact ⟨allocate_layout E.fresh s.rb_outbuf ofc channels (by omega) (by omega) hov, rfl,
        le_refl _⟩
    · rename_i hcap
      rcases hfit with h1 | ⟨h1, h2⟩
      · omega
      · exact ⟨h1, h2, by omega⟩
  obtain ⟨out1, e1, hl1, hc1, hcap1⟩ := hout1
  have hret : drain_retrieve E channels s
      = { out1 with data := retrieve_into out1 written } := by
    unfold drain_retrieve
    simp only [hofc, hwr, e1]
  have hk : ((ofc.toNat : Nat) : Int) = ofc := Int.toNat_of_nonneg (by omega)
  have hm : ((channels.toNat : Nat) : Int) = channels := Int.toNat_of_nonneg (by omega)
  have hwl : written.length = channels.toNat := by omega
  obtain ⟨r1, r2⟩ := retrieve_rows_spec out1 written hl1 ofc.toNat (by omega)
    (fun w hw => by have := hq3 w hw; omega) written.length (le_refl _) (by omega)
  rw [← retrieve_into_eq_rows] at r1 r2
  have hl2 : AllocLayout { out1 with data := retrieve_into out1 written } :=
    layout_with_data hl1 _ r1
  refine ⟨?_, by rw [hret]; exact hl2, by rw [hret]; exact hc1⟩
  -- the chunk
  unfold drain_chunk
  rw [hofc, hret, fetch_eq_fetch_frames]
  have hp0 : 0 ≤ ofc * channels := mul_nonneg (by omega) (by omega)
  have hlen := malloc_floats_length E.fresh (ofc * channels) hp0 hov
  obtain ⟨f1, f2, _⟩ := fetch_frames_spec { out1 with data := retrieve_into out1 written }
    (malloc_floats E.fresh (to_size_t (wrap32 (ofc * channels)) * 4 % 18446744073709551616))
    (by show 0 ≤ out1.channels; omega) ofc.toNat
    (by show ((ofc.toNat : Nat) : Int) * out1.channels ≤ _; rw [hk, hc1]; unfold INT_MAX at hov; omega)
    (by show ((ofc.toNat : Nat) : Int) * out1.channels ≤ _; rw [hk, hc1, hlen])
  have hmul : ((ofc.toNat * channels.toNat : Nat) : Int) = ofc * channels := by
    push_cast
    rw [hk, hm]
  apply list_ext_load
  · rw [f1, length_interleave]
    omega
  · intro j hj
    rw [f1] at hj
    have hj2 : j < ofc.toNat * channels.toNat := by omega
    have hmpos : 0 < channels.toNat := by omega
    rw [load_interleave _ _ _ _ hj2]
    have hdm : channels.toNat * (j / channels.toNat) + j % channels.toNat = j :=
      Nat.div_add_mod j channels.toNat
    have hmod : j % channels.toNat < channels.toNat := Nat.mod_lt j hmpos
    have hdiv : j / channels.toNat < ofc.toNat := by
      rw [Nat.div_lt_iff_lt_mul hmpos]
      exact hj2
    have hj3 : (j : Int) = ((j / channels.toNat : Nat) : Int) * out1.channels
        + ((j % channels.toNat : Nat) : Int) := by
      rw [hc1, ← hm]
      exact_mod_cast (by rw [Nat.mul_comm]; exact hdm.symm)
    rw [hj3]
    have key := f2 (j / channels.toNat) (j % channels.toNat) hdiv
      (by show ((j % channels.toNat : Nat) : Int) < out1.channels; omega)
    have e2 : ({ out1 with data := retrieve_into out1 written } : GstRubberBandBuffer).channels
        = out1.channels := rfl
    have e3 : ({ out1 with data := retrieve_into out1 written } : GstRubberBandBuffer).data
        = retrieve_into out1 written := rfl
    have e4 : ({ out1 with data := retrieve_into out1 written } :
        GstRubberBandBuffer).channel_data = out1.channel_data := rfl
    rw [e2, e3, e4] at key
    rw [key, layout_view hl1 (by omega)]
    exact r2 (j % channels.toNat) (j / channels.toNat) (by omega) hdiv

theorem length_fetch (buf : GstRubberBandBuffer) (output : List Sample) (frame_count : Int) :
    (gst_rubber_band_buffer_fetch buf output frame_count).length = output.length := by
  rw [fetch_eq_fetch_frames]
  generalize frame_count.toNat = n
  induction n with
  | zero => rfl
  | succ n ih => rw [fetch_frames_succ, length_writes, ih]

theorem iterate_exact {σ δ : Type} (E : Externals σ δ) (channels : Int) (s : ChainState σ δ)
    (hch : 1 ≤ channels) (hfit : OutputFit channels s.rb_outbuf)
    (hs : List.Forall₂ (EmitsRetrieved channels) (pushes s.calls) (retrieves s.calls)) :
    ∀ j : Nat,
      (∀ i, i < j → 0 < E.rubberband_available ((drain_iter E channels)^[i] s).st) →
      (∀ q ∈ retrieves ((drain_iter E channels)^[j] s).calls,
        ExactRetrieve channels q ∧ q.1 * channels ≤ INT_MAX) →
      List.Forall₂ (EmitsRetrieved channels) (pushes ((drain_iter E channels)^[j] s).calls)
          (retrieves ((drain_iter E channels)^[j] s).calls) ∧
        OutputFit channels ((drain_iter E channels)^[j] s).rb_outbuf := by
  intro j
  induction j with
  | zero =>
    intro _ _
    exact ⟨hs, hfit⟩
  | succ j ih =>
    intro hav hq
    rw [Function.iterate_succ_apply'] at hq ⊢
    rw [drain_iter_retrieves] at hq
    obtain ⟨i1, i2⟩ := ih (fun i hi => hav i (by omega))
      (fun q hq2 => hq q (List.mem_append_left _ hq2))
    have hex := hq _ (List.mem_append_right _ (List.mem_singleton_self _))
    obtain ⟨c1, c2, c3⟩ := drain_chunk_exact E channels ((drain_iter E channels)^[j] s) hch
      (hav j (by omega)) hex.2 i2 hex.1
    rw [drain_iter_pushes, drain_iter_retrieves]
    refine ⟨List.rel_append i1 (List.Forall₂.cons ⟨hav j (by omega), c1⟩ List.Forall₂.nil), ?_⟩
    exact Or.inr ⟨c2, c3⟩

theorem frames_of_exact (channels : Int) (hch : 1 ≤ channels)
    (ps : List (List Sample × GstFlowReturn)) (qs : List (Int × List (List Sample) × Int))
    (h : List.Forall₂ (EmitsRetrieved channels) ps qs)
    (hq : ∀ q ∈ qs, ExactRetrieve channels q) :
    (ps.map (fun p => (p.1.length : Int) / channels)).sum = (qs.map (fun q => q.2.2)).sum := by
  induction h with
  | nil => rfl
  | @cons p q ps qs hpq _ ih =>
    simp only [List.map_cons, List.sum_cons]
    rw [ih (fun q hq2 => hq q (List.mem_cons_of_mem _ hq2))]
    obtain ⟨h0, hp⟩ := hpq
    obtain ⟨e1, _, _⟩ := hq q (List.mem_cons_self _ _)
    rw [hp, length_interleave, e1]
    have hk : ((q.1.toNat : Nat) : Int) = q.1 := Int.toNat_of_nonneg (by omega)
    have hm : ((channels.toNat : Nat) : Int) = channels := Int.toNat_of_nonneg (by omega)
    push_cast
    rw [hk, hm, Int.mul_ediv_cancel _ (by omega)]

/-- C7, as stated, fails in three ways.

1. The engine reports 2 frames available and `rubberband_retrieve` writes
   and returns 1 frame: the chunk pushed has 2 frames, `[1, 3, 0, 0]`, of
   which the second was never written by the engine; 2 frames are emitted
   and 1 is retrieved.
2. In `overflowState` the engine returns the 1073741824 frames of 4
   channels it was asked for: `output_frame_count * channels` leaves the
   `int` range and the chunk pushed has no sample.
3. In `mismatchState` the output buffer is laid out for 2 channels and 1
   channel is negotiated: the engine writes the frames 5 and 6, the chunk
   pushed is `[5, 9]`. -/
theorem drain_emits_retrieved_counterexample :
    ((gst_rubber_band_chain (scripted [⟨2, [[1], [3]], 1⟩]) 4
        (negotiated [⟨2, [[1], [3]], 1⟩] stereo) [] ⟨[1, 2, 3, 4], 16⟩).map
      (fun r => (pushes r.calls, retrieves r.calls, frames_emitted 2 r.calls,
        frames_retrieved r.calls))
      = some ([([1, 3, 0, 0], 0)], [(2, [[1], [3]], 1)], 2, 1)) ∧
    ((scripted []).rubberband_available overflowState.st = 1073741824 ∧
      ((scripted []).rubberband_retrieve overflowState.st 1073741824).2.2 = 1073741824 ∧
      (drain_chunk (scripted []) 4 overflowState).length = 0) ∧
    (((scripted []).rubberband_retrieve mismatchState.st 2).2 = ([[5, 6]], 2) ∧
      interleave 1 2 [[5, 6]] = [5, 6] ∧
      drain_chunk (scripted []) 1 mismatchState = [5, 9]) := by
  refine ⟨by rfl, ⟨by rfl, by rfl, ?_⟩, by rfl, by rfl, by rfl⟩
  unfold drain_chunk
  rw [length_fetch]
  decide

/-- C7, amended. For every call of `gst_rubber_band_chain` that returns, on
an element with at least one negotiated channel whose output buffer holds
no frame or has the layout of allocate for the negotiated channel count:
when every `rubberband_retrieve` of the call returned the number of frames
it was asked for, wrote that many samples to each of the channel views, and
that number times the channel count is at most `INT_MAX`, then the chunk of
every push is the interleaving of what the retrieve of the same iteration
wrote (frame `f`, channel `c` at position `f * channels + c`), the number
of frames emitted equals the number of frames retrieved, and the output
buffer is left with the layout for the negotiated channel count. -/
theorem drain_emits_retrieved {σ δ : Type} (E : Externals σ δ) (fuel : Nat)
    (filter : GstRubberBand σ) (pad : δ) (inbuf : GstMapInfo) (r : ChainResult σ δ)
    (hch : 1 ≤ filter.info.channels)
    (hfit : OutputFit filter.info.channels filter.rb_outbuf)
    (h : gst_rubber_band_chain E fuel filter pad inbuf = some r)
    (hq : ∀ q ∈ retrieves r.calls,
      ExactRetrieve filter.info.channels q ∧ q.1 * filter.info.channels ≤ INT_MAX) :
    List.Forall₂ (EmitsRetrieved filter.info.channels) (pushes r.calls) (retrieves r.calls) ∧
      frames_emitted filter.info.channels r.calls = frames_retrieved r.calls ∧
      OutputFit filter.info.channels r.filter.rb_outbuf := by
  obtain ⟨s0, j, hs0, _, e, a1, _, _⟩ := chain_sound E fuel filter pad inbuf r h
  obtain ⟨hp0, hr0, _⟩ := chain_feed_calls E filter pad inbuf s0 hs0
  obtain ⟨_, _, _, _, hout, _, _, _⟩ := chain_feed_some E filter pad inbuf s0 hs0
  subst e
  have hq2 : ∀ q ∈ retrieves ((drain_iter E filter.info.channels)^[j] s0).calls,
      ExactRetrieve filter.info.channels q ∧ q.1 * filter.info.channels ≤ INT_MAX := hq
  obtain ⟨k1, k2⟩ := iterate_exact E filter.info.channels s0 hch (by rw [hout]; exact hfit)
    (by rw [hp0, hr0]; exact List.Forall₂.nil) j a1 hq2
  exact ⟨k1, frames_of_exact filter.info.channels hch _ _ k1 (fun q hq3 => (hq2 q hq3).1), k2⟩

/-- C7, an instance: the engine has a batch of 2 frames and a batch of 1
frame ready and returns what it is asked for: the chunks pushed are
`[1, 3, 2, 4]` and `[5, 6]`, 3 frames in all. -/
theorem drain_emits_retrieved_witness :
    List.Forall₂ (EmitsRetrieved 2)
        (pushes (((gst_rubber_band_chain
          (scripted [⟨2, [[1, 2], [3, 4]], 2⟩, ⟨1, [[5], [6]], 1⟩]) 4
          (negotiated [⟨2, [[1, 2], [3, 4]], 2⟩, ⟨1, [[5], [6]], 1⟩] stereo) []
          ⟨[1, 2, 3, 4], 16⟩).map (fun r => r.calls)).getD []))
        (retrieves (((gst_rubber_band_chain
          (scripted [⟨2, [[1, 2], [3, 4]], 2⟩, ⟨1, [[5], [6]], 1⟩]) 4
          (negotiated [⟨2, [[1, 2], [3, 4]], 2⟩, ⟨1, [[5], [6]], 1⟩] stereo) []
          ⟨[1, 2, 3, 4], 16⟩).map (fun r => r.calls)).getD [])) ∧
      pushes (((gst_rubber_band_chain
          (scripted [⟨2, [[1, 2], [3, 4]], 2⟩, ⟨1, [[5], [6]], 1⟩]) 4
          (negotiated [⟨2, [[1, 2], [3, 4]], 2⟩, ⟨1, [[5], [6]], 1⟩] stereo) []
          ⟨[1, 2, 3, 4], 16⟩).map (fun r => r.calls)).getD [])
        = [([1, 3, 2, 4], 0), ([5, 6], 0)] :=
  ⟨(drain_emits_retrieved (scripted [⟨2, [[1, 2], [3, 4]], 2⟩, ⟨1, [[5], [6]], 1⟩]) 4
      (negotiated [⟨2, [[1, 2], [3, 4]], 2⟩, ⟨1, [[5], [6]], 1⟩] stereo) [] ⟨[1, 2, 3, 4], 16⟩
      ((gst_rubber_band_chain (scripted [⟨2, [[1, 2], [3, 4]], 2⟩, ⟨1, [[5], [6]], 1⟩]) 4
        (negotiated [⟨2, [[1, 2], [3, 4]], 2⟩, ⟨1, [[5], [6]], 1⟩] stereo) []
        ⟨[1, 2, 3, 4], 16⟩).get (by decide))
      (by decide) (by decide) (Option.some_get _).symm (by decide)).1, by rfl⟩

/-! ## C8: the maximum process size after a second format change -/

theorem chain_idle {σ δ : Type} (E : Externals σ δ) (fuel : Nat) (filter : GstRubberBand σ)
    (pad : δ) (inbuf : GstMapInfo) (st0 : σ) (hch : to_size_t filter.info.channels ≠ 0)
    (hst : filter.rb_state = some st0)
    (hav : ∀ st, E.rubberband_available st = 0) :
    ∃ r, gst_rubber_band_chain E fuel filter pad inbuf = some r ∧
      r.calls = (chain_size E filter st0 (input_frame_count filter.info.channels inbuf)).2.2
        ++ [Call.process (chain_fill E filter st0 inbuf).frames_buffered] ∧
      r.filter.rb_inbuf.frames_buffered = 0 ∧
      r.filter.rb_inbuf.frame_capacity = (chain_fill E filter st0 inbuf).frame_capacity ∧
      r.filter.rb_inbuf.channels = (chain_fill E filter st0 inbuf).channels ∧
      r.filter.rb_outbuf = filter.rb_outbuf ∧ r.filter.info = filter.info ∧ r.pad = pad := by
  have hfeed : ∃ s0, chain_feed E filter pad inbuf = some s0 := by
    unfold chain_feed
    rw [if_neg hch]
    simp only [hst]
    exact ⟨_, rfl⟩
  obtain ⟨s0, hs0⟩ := hfeed
  obtain ⟨_, st0', hst', e1, e2, e3, e4, _⟩ := chain_feed_some E filter pad inbuf s0 hs0
  have hs : st0' = st0 := by
    rw [hst] at hst'
    exact (Option.some.inj hst').symm
  subst hs
  refine ⟨chain_result filter s0, ?_, e4, ?_, ?_, ?_, e2, rfl, e3⟩
  rotate_left
  · show s0.rb_inbuf.frames_buffered = 0
    rw [e1]
  · show s0.rb_inbuf.frame_capacity = _
    rw [e1]
  · show s0.rb_inbuf.channels = _
    rw [e1]
  unfold gst_rubber_band_chain
  rw [hs0]
  simp only
  rw [if_pos (hav s0.st)]

theorem run_event {σ δ : Type} (E : Externals σ δ) (fuel : Nat) (filter : GstRubberBand σ)
    (pad : δ) (e : GstEvent) (rest : List StageInput) (pre : List Call) :
    (run E fuel filter pad (StageInput.event e :: rest)).map (fun x => pre ++ x.2.2)
      = (run E fuel (gst_rubber_band_sink_event E filter pad e).1
          (gst_rubber_band_sink_event E filter pad e).2.1 rest).map
        (fun x => (pre ++ (gst_rubber_band_sink_event E filter pad e).2.2.2) ++ x.2.2) := by
  simp only [run, Option.map_map]
  congr 1
  funext x
  simp

theorem run_chunk {σ δ : Type} (E : Externals σ δ) (fuel : Nat) (filter : GstRubberBand σ)
    (pad : δ) (inbuf : GstMapInfo) (rest : List StageInput) (pre : List Call)
    (r : ChainResult σ δ) (h : gst_rubber_band_chain E fuel filter pad inbuf = some r) :
    (run E fuel filter pad (StageInput.chunk inbuf :: rest)).map (fun x => pre ++ x.2.2)
      = (run E fuel r.filter r.pad rest).map (fun x => (pre ++ r.calls) ++ x.2.2) := by
  simp only [run, h, Option.map_map]
  congr 1
  funext x
  simp

theorem run_nil {σ δ : Type} (E : Externals σ δ) (fuel : Nat) (filter : GstRubberBand σ)
    (pad : δ) (pre : List Call) :
    (run E fuel filter pad []).map (fun x => pre ++ x.2.2) = some pre := by
  simp [run]

/-- C8, the code at the failing input: a format change, a chunk of 4096
frames, a second format change and a second chunk of 4096 frames, with an
engine that has no output ready.  The first chunk makes the element
allocate the input buffer and call `rubberband_set_max_process_size (4096)`
on the first engine; the second format change builds a new engine, and the
second chunk is processed by it (4096 frames) without any call of
`rubberband_set_max_process_size`, the input buffer being large enough
already: the check `max_process_size_respected` fails on the calls made. -/
theorem max_process_size_not_set_after_format_change :
    (run latent 1 (gst_rubber_band_init Unit) ()
        [StageInput.event (GstEvent.CAPS (some stereo)), StageInput.chunk fullChunk,
          StageInput.event (GstEvent.CAPS (some stereo)), StageInput.chunk fullChunk]).map
      (fun x => x.2.2)
      = some [Call.rubberband_new 44100 2,
          Call.allocate BufferId.rb_inbuf 0 4096 2,
          Call.set_max_process_size 4096,
          Call.process 4096,
          Call.rubberband_new 44100 2,
          Call.process 4096] ∧
    max_process_size_respected []
        [Call.rubberband_new 44100 2,
          Call.allocate BufferId.rb_inbuf 0 4096 2,
          Call.set_max_process_size 4096,
          Call.process 4096] = true ∧
    max_process_size_respected []
        [Call.rubberband_new 44100 2,
          Call.allocate BufferId.rb_inbuf 0 4096 2,
          Call.set_max_process_size 4096,
          Call.process 4096,
          Call.rubberband_new 44100 2,
          Call.process 4096] = false := by
  refine ⟨?_, by decide, by decide⟩
  -- the first chunk
  have hn : input_frame_count 2 fullChunk = 4096 := by decide
  obtain ⟨r1, h1, c1, hb1fb, hb1cap, _, _, _, _⟩ := chain_idle latent 1
    (gst_rubber_band_sink_event latent (gst_rubber_band_init Unit) ()
      (GstEvent.CAPS (some stereo))).1
    (gst_rubber_band_sink_event latent (gst_rubber_band_init Unit) ()
      (GstEvent.CAPS (some stereo))).2.1
    fullChunk () (by decide) rfl (fun _ => rfl)
  have hfill1 : (chain_fill latent
      (gst_rubber_band_sink_event latent (gst_rubber_band_init Unit) ()
        (GstEvent.CAPS (some stereo))).1 () fullChunk).frames_buffered = 4096 := by
    unfold chain_fill
    rw [append_frames_buffered _ _ _ (by decide)]
    decide
  have hcap1 : (chain_fill latent
      (gst_rubber_band_sink_event latent (gst_rubber_band_init Unit) ()
        (GstEvent.CAPS (some stereo))).1 () fullChunk).frame_capacity = 4096 := by
    rw [(chain_fill_fields _ _ _ _).1]
    decide
  rw [hfill1] at c1
  rw [hcap1] at hb1cap
  have hc1 : r1.calls = [Call.allocate BufferId.rb_inbuf 0 4096 2,
      Call.set_max_process_size 4096, Call.process 4096] := by
    rw [c1]
    decide
  -- the second chunk
  have hch2 : to_size_t (gst_rubber_band_sink_event latent r1.filter r1.pad
      (GstEvent.CAPS (some stereo))).1.info.channels ≠ 0 := by
    show to_size_t (2 : Int) ≠ 0
    decide
  obtain ⟨r2, h2, c2, _⟩ := chain_idle latent 1
    (gst_rubber_band_sink_event latent r1.filter r1.pad (GstEvent.CAPS (some stereo))).1
    (gst_rubber_band_sink_event latent r1.filter r1.pad (GstEvent.CAPS (some stereo))).2.1
    fullChunk () hch2 rfl (fun _ => rfl)
  have hsize2 : chain_size latent
      (gst_rubber_band_sink_event latent r1.filter r1.pad (GstEvent.CAPS (some stereo))).1 ()
      (input_frame_count 2 fullChunk) = (r1.filter.rb_inbuf, (), []) := by
    unfold chain_size
    rw [if_neg]
    · rfl
    · show ¬ r1.filter.rb_inbuf.frame_capacity
        < required_rb_inbuf_size (input_frame_count 2 fullChunk)
      rw [hb1cap, hn]
      decide
  have hfill2 : (chain_fill latent
      (gst_rubber_band_sink_event latent r1.filter r1.pad (GstEvent.CAPS (some stereo))).1 ()
      fullChunk).frames_buffered = 4096 := by
    unfold chain_fill
    show (gst_rubber_band_buffer_append (chain_size latent
      (gst_rubber_band_sink_event latent r1.filter r1.pad (GstEvent.CAPS (some stereo))).1 ()
      (input_frame_count 2 fullChunk)).1 fullChunk.data
        (input_frame_count 2 fullChunk)).frames_buffered = 4096
    rw [hsize2]
    show (gst_rubber_band_buffer_append r1.filter.rb_inbuf fullChunk.data
        (input_frame_count 2 fullChunk)).frames_buffered = 4096
    rw [append_frames_buffered _ _ _ (by rw [hb1cap, hb1fb]; decide), hb1cap, hb1fb, hn]
    decide
  have hc2 : r2.calls = [Call.process 4096] := by
    rw [c2, hfill2]
    show (chain_size latent
      (gst_rubber_band_sink_event latent r1.filter r1.pad (GstEvent.CAPS (some stereo))).1 ()
      (input_frame_count 2 fullChunk)).2.2 ++ _ = _
    rw [hsize2]
    rfl
  show (run latent 1 (gst_rubber_band_init Unit) () _).map (fun x => [] ++ x.2.2) = _
  rw [run_event, run_chunk _ _ _ _ _ _ _ r1 h1, run_event, run_chunk _ _ _ _ _ _ _ r2 h2,
    run_nil, hc1, hc2]
  rfl

/-! ## C9: a non-interleaved layout -/

/-- C9, the code at the failing input: for every `CAPS` event whose caps
parse to a non-interleaved layout, `gst_rubber_band_sink_event` stores the
format, builds a new engine for it and returns what forwarding the event
returns, exactly as for an interleaved layout; with a downstream that
accepts the event the result is `TRUE`. -/
theorem sink_event_non_interleaved {σ δ : Type} (E : Externals σ δ) (filter : GstRubberBand σ)
    (pad : δ) (rate channels : Int) :
    gst_rubber_band_sink_event E filter pad
        (GstEvent.CAPS (some ⟨GstAudioLayout.NON_INTERLEAVED, rate, channels⟩))
      = ({ filter with
            info := ⟨GstAudioLayout.NON_INTERLEAVED, rate, channels⟩
            rb_state := some (E.rubberband_set_time_ratio (E.rubberband_new rate channels) 2.5) },
          (E.gst_pad_event_default pad
            (GstEvent.CAPS (some ⟨GstAudioLayout.NON_INTERLEAVED, rate, channels⟩))).1,
          (E.gst_pad_event_default pad
            (GstEvent.CAPS (some ⟨GstAudioLayout.NON_INTERLEAVED, rate, channels⟩))).2,
          [Call.rubberband_new rate channels]) ∧
    (gst_rubber_band_sink_event (scripted []) (gst_rubber_band_init (List Batch)) []
        (GstEvent.CAPS (some planar))).2.2.1 = true ∧
    (gst_rubber_band_sink_event (scripted []) (gst_rubber_band_init (List Batch)) []
        (GstEvent.CAPS (some planar))).1.rb_state = some [] :=
  ⟨rfl, rfl, rfl⟩

/-! ## C10: the input buffer is empty between chunks -/

theorem processes_append (a b : List Call) : processes (a ++ b) = processes a ++ processes b := by
  induction a with
  | nil => rfl
  | cons c a ih => cases c <;> simp [processes, ih]

theorem allocations_append (a b : List Call) :
    allocations (a ++ b) = allocations a ++ allocations b := by
  induction a with
  | nil => rfl
  | cons c a ih => cases c <;> simp [allocations, ih]

theorem drain_iter_processes {σ δ : Type} (E : Externals σ δ) (channels : Int)
    (s : ChainState σ δ) : processes (drain_iter E channels s).calls = processes s.calls := by
  simp only [drain_iter, processes_append]
  split <;> simp [processes]

theorem drain_iter_allocations {σ δ : Type} (E : Externals σ δ) (channels : Int)
    (s : ChainState σ δ) (hs : ∀ a ∈ allocations s.calls, a.2.1 = 0)
    (hfb : s.rb_outbuf.frames_buffered = 0) :
    (∀ a ∈ allocations (drain_iter E channels s).calls, a.2.1 = 0) ∧
      (drain_iter E channels s).rb_outbuf.frames_buffered = 0 := by
  constructor
  · simp only [drain_iter, allocations_append]
    intro a ha
    split at ha
    · simp only [allocations, List.append_nil, List.mem_append, List.mem_singleton] at ha
      rcases ha with ha | ha
      · exact hs a ha
      · rw [ha]
        exact hfb
    · simp only [allocations, List.append_nil] at ha
      exact hs a ha
  · show (drain_retrieve E channels s).frames_buffered = 0
    unfold drain_retrieve
    simp only
    split
    · rfl
    · exact hfb

theorem chain_good_call {σ δ : Type} (E : Externals σ δ) (fuel : Nat) (ch : Int)
    (hch : 1 ≤ ch) (hmax : ch ≤ INT_MAX) (filter : GstRubberBand σ) (pad : δ)
    (c : GstMapInfo) (r : ChainResult σ δ)
    (hin : filter.rb_inbuf.frames_buffered = 0) (hout : filter.rb_outbuf.frames_buffered = 0)
    (hinfo : filter.info.channels = ch) (hsize : c.size / ch.toNat / 4 ≤ 2147483647)
    (h : gst_rubber_band_chain E fuel filter pad c = some r) :
    GoodCall E ch filter c r ∧ r.filter.rb_outbuf.frames_buffered = 0 ∧
      r.filter.info.channels = ch := by
  obtain ⟨s0, j, hs0, _, e, _, _, _⟩ := chain_sound E fuel filter pad c r h
  obtain ⟨_, st0, _, e1, e2, _, e4, _⟩ := chain_feed_some E filter pad c s0 hs0
  have hn := input_frame_count_eq ch c hch hmax hsize
  unfold GoodCall
  generalize c.size / ch.toNat / 4 = q at hsize hn ⊢
  -- the append
  have hfill : ∀ st, (chain_fill E filter st c).frames_buffered = (q : Int) := by
    intro st
    unfold chain_fill
    rw [hinfo, hn]
    have hcap := chain_size_capacity E filter st (q : Int)
    have hfb : (chain_size E filter st (q : Int)).1.frames_buffered = 0 := by
      unfold chain_size
      split
      · rfl
      · exact hin
    have hge : max (q : Int) 4096 ≤ (chain_size E filter st (q : Int)).1.frame_capacity := by
      rw [hcap]
      split <;> omega
    rw [append_frames_buffered _ _ _ (by rw [hfb]; omega), hfb]
    omega
  -- the calls before the loop
  have hp0 : processes s0.calls = [(q : Int)] := by
    rw [e4, processes_append, hfill st0]
    unfold chain_size
    split <;> simp [processes]
  have ha0 : ∀ a ∈ allocations s0.calls, a.2.1 = 0 := by
    rw [e4, allocations_append]
    unfold chain_size
    intro a ha
    split at ha
    · simp only [allocations, List.append_nil, List.mem_singleton] at ha
      rw [ha]
      exact hin
    · simp [allocations] at ha
  -- the loop
  have hinv := iterate_invariant E filter.info.channels
    (fun t => (∀ a ∈ allocations t.calls, a.2.1 = 0) ∧ t.rb_outbuf.frames_buffered = 0 ∧
      processes t.calls = processes s0.calls)
    (fun t ht => ⟨(drain_iter_allocations E _ t ht.1 ht.2.1).1,
      (drain_iter_allocations E _ t ht.1 ht.2.1).2,
      by rw [drain_iter_processes]; exact ht.2.2⟩)
    s0 ⟨ha0, by rw [e2]; exact hout, rfl⟩ j
  obtain ⟨k1, k2, k3⟩ := hinv
  subst e
  refine ⟨⟨hin, k1, hfill, by rw [← hp0]; exact k3, ?_⟩, k2, hinfo⟩
  show ((drain_iter E filter.info.channels)^[j] s0).rb_inbuf.frames_buffered = 0
  rw [iterate_rb_inbuf, e1]

theorem chain_seq_good {σ δ : Type} (E : Externals σ δ) (fuel : Nat) (ch : Int) (hch : 1 ≤ ch)
    (hmax : ch ≤ INT_MAX) :
    ∀ (chunks : List GstMapInfo) (filter : GstRubberBand σ) (pad : δ)
      (rs : List (ChainResult σ δ)),
      filter.rb_inbuf.frames_buffered = 0 → filter.rb_outbuf.frames_buffered = 0 →
      filter.info.channels = ch → (∀ c ∈ chunks, c.size / ch.toNat / 4 ≤ 2147483647) →
      chain_seq E fuel filter pad chunks = some rs → GoodSeq E ch filter chunks rs := by
  intro chunks
  induction chunks with
  | nil =>
    intro filter pad rs _ _ _ _ h
    simp only [chain_seq, Option.some.injEq] at h
    subst h
    trivial
  | cons c rest ih =>
    intro filter pad rs hin hout hinfo hsize h
    simp only [chain_seq] at h
    split at h
    · exact absurd h (by simp)
    · rename_i r hr
      simp only [Option.map_eq_some'] at h
      obtain ⟨rs', hrs', e⟩ := h
      subst e
      obtain ⟨g1, g2, g3⟩ := chain_good_call E fuel ch hch hmax filter pad c r hin hout hinfo
        (hsize c (List.mem_cons_self _ _)) hr
      exact ⟨g1, ih r.filter r.pad rs' g1.2.2.2.2 g2 g3
        (fun c' hc' => hsize c' (List.mem_cons_of_mem _ hc')) hrs'⟩

/-- C10, as stated, fails for a chunk of 2147483648 frames: with 1 channel
negotiated and a first chunk of 8589934592 bytes, `input_frame_count` is
the `int` -2147483648, nothing is appended and `rubberband_process` is
called with 0 frames, not with the `byteSize / ch / 4 = 2147483648` frames
of the chunk. -/
theorem chain_seq_unclamped_counterexample :
    (gst_rubber_band_sink_event latent (gst_rubber_band_init Unit) ()
        (GstEvent.CAPS (some mono))).1.rb_inbuf = GstRubberBandBuffer.init ∧
    (gst_rubber_band_sink_event latent (gst_rubber_band_init Unit) ()
        (GstEvent.CAPS (some mono))).1.rb_outbuf = GstRubberBandBuffer.init ∧
    hugeChunk.size / 1 / 4 = 2147483648 ∧
    input_frame_count 1 hugeChunk = -2147483648 ∧
    (gst_rubber_band_chain latent 1
        (gst_rubber_band_sink_event latent (gst_rubber_band_init Unit) ()
          (GstEvent.CAPS (some mono))).1 () hugeChunk).map (fun r => r.calls)
      = some [Call.allocate BufferId.rb_inbuf 0 4096 1, Call.set_max_process_size 4096,
          Call.process 0] := by
  decide

/-- C10, amended. For every sequence of chunks with a fixed negotiated
channel count `1 ≤ ch ≤ INT_MAX`, each chunk with
`byteSize / ch / 4 ≤ INT_MAX`, starting from an element whose two buffers
are as `gst_rubber_band_init` leaves them (empty, capacity 0): every call
of `gst_rubber_band_chain` in the sequence is entered with
`rb_inbuf.frames_buffered = 0`, calls allocate only on a buffer whose
`frames_buffered` is 0, appends all `n = byteSize / ch / 4` frames of its
chunk, calls `rubberband_process` once, with `n` frames, and returns with
`rb_inbuf.frames_buffered = 0`. -/
theorem chain_seq_unclamped {σ δ : Type} (E : Externals σ δ) (fuel : Nat) (ch : Int)
    (filter : GstRubberBand σ) (pad : δ) (chunks : List GstMapInfo)
    (rs : List (ChainResult σ δ)) (hch : 1 ≤ ch) (hmax : ch ≤ INT_MAX)
    (hin : filter.rb_inbuf = GstRubberBandBuffer.init)
    (hout : filter.rb_outbuf = GstRubberBandBuffer.init)
    (hinfo : filter.info.channels = ch)
    (hsize : ∀ c ∈ chunks, c.size / ch.toNat / 4 ≤ 2147483647)
    (h : chain_seq E fuel filter pad chunks = some rs) :
    GoodSeq E ch filter chunks rs :=
  chain_seq_good E fuel ch hch hmax chunks filter pad rs (by rw [hin]; rfl) (by rw [hout]; rfl)
    hinfo hsize h

/-- C10, an instance: two chunks, of 2 frames and of 1 frame, through a
newly negotiated stereo element whose engine has one batch ready. -/
theorem chain_seq_unclamped_witness :
    (chain_seq (scripted [⟨1, [[5], [6]], 1⟩]) 4 (negotiated [⟨1, [[5], [6]], 1⟩] stereo) []
        [⟨[1, 2, 3, 4], 16⟩, ⟨[7, 8], 8⟩]).isSome = true ∧
    (∀ rs, chain_seq (scripted [⟨1, [[5], [6]], 1⟩]) 4
        (negotiated [⟨1, [[5], [6]], 1⟩] stereo) [] [⟨[1, 2, 3, 4], 16⟩, ⟨[7, 8], 8⟩] = some rs →
      GoodSeq (scripted [⟨1, [[5], [6]], 1⟩]) 2 (negotiated [⟨1, [[5], [6]], 1⟩] stereo)
        [⟨[1, 2, 3, 4], 16⟩, ⟨[7, 8], 8⟩] rs) ∧
    (chain_seq (scripted [⟨1, [[5], [6]], 1⟩]) 4 (negotiated [⟨1, [[5], [6]], 1⟩] stereo) []
        [⟨[1, 2, 3, 4], 16⟩, ⟨[7, 8], 8⟩]).map (fun rs => rs.map (fun r => processes r.calls))
      = some [[2], [1]] :=
  ⟨by decide,
    fun rs h => chain_seq_unclamped (scripted [⟨1, [[5], [6]], 1⟩]) 4 2
      (negotiated [⟨1, [[5], [6]], 1⟩] stereo) [] [⟨[1, 2, 3, 4], 16⟩, ⟨[7, 8], 8⟩] rs
      (by decide) (by decide) rfl rfl rfl (by decide) h,
    by decide⟩

/-! ## C11: the buffers after a format change -/

theorem chain_fill_channels {σ δ : Type} (E : Externals σ δ) (filter : GstRubberBand σ)
    (st0 : σ) (inbuf : GstMapInfo) :
    (chain_fill E filter st0 inbuf).channels
      = if filter.rb_inbuf.frame_capacity
            < required_rb_inbuf_size (input_frame_count filter.info.channels inbuf)
          then filter.info.channels
        else filter.rb_inbuf.channels := by
  rw [(chain_fill_fields E filter st0 inbuf).2]
  unfold chain_size
  split <;> rfl

theorem drain_retrieve_channels {σ δ : Type} (E : Externals σ δ) (channels : Int)
    (s : ChainState σ δ) :
    (drain_retrieve E channels s).channels
      = if s.rb_outbuf.frame_capacity < E.rubberband_available s.st then channels
        else s.rb_outbuf.channels := by
  unfold drain_retrieve
  simp only
  split <;> rfl

theorem append_layout {buf : GstRubberBandBuffer} (h : AllocLayout buf) (nf : List Sample)
    (fc : Int) : AllocLayout (gst_rubber_band_buffer_append buf nf fc) := by
  obtain ⟨e1, e2, e3, e4⟩ := append_fields buf nf fc
  obtain ⟨h1, h2, h3, h4⟩ := h
  unfold AllocLayout
  rw [e1, e2, e3, e4]
  exact ⟨h1, h2, h3, h4⟩

theorem layout_of_fields {x y : GstRubberBandBuffer} (h : AllocLayout x)
    (e1 : y.data = x.data) (e2 : y.channel_data = x.channel_data)
    (e3 : y.channels = x.channels) (e4 : y.frame_capacity = x.frame_capacity) :
    AllocLayout y := by
  obtain ⟨h1, h2, h3, h4⟩ := h
  unfold AllocLayout
  rw [e1, e2, e3, e4]
  exact ⟨h1, h2, h3, h4⟩

theorem chain_result_rb_inbuf {σ δ : Type} (E : Externals σ δ) (fuel : Nat)
    (filter : GstRubberBand σ) (pad : δ) (inbuf : GstMapInfo) (r : ChainResult σ δ)
    (h : gst_rubber_band_chain E fuel filter pad inbuf = some r) :
    ∃ st0, filter.rb_state = some st0 ∧
      r.filter.rb_inbuf.data = (chain_fill E filter st0 inbuf).data ∧
      r.filter.rb_inbuf.channel_data = (chain_fill E filter st0 inbuf).channel_data ∧
      r.filter.rb_inbuf.channels = (chain_fill E filter st0 inbuf).channels ∧
      r.filter.rb_inbuf.frame_capacity = (chain_fill E filter st0 inbuf).frame_capacity ∧
      r.filter.rb_inbuf.frames_buffered = 0 ∧ r.filter.info = filter.info := by
  obtain ⟨s0, j, hs0, _, e, _, _, _⟩ := chain_sound E fuel filter pad inbuf r h
  obtain ⟨_, st0, hst, e1, _⟩ := chain_feed_some E filter pad inbuf s0 hs0
  subst e
  have hin : (chain_result filter ((drain_iter E filter.info.channels)^[j] s0)).filter.rb_inbuf
      = s0.rb_inbuf := iterate_rb_inbuf E filter.info.channels s0 j
  rw [hin, e1]
  exact ⟨st0, hst, rfl, rfl, rfl, rfl, rfl, rfl⟩

theorem chain_fill_grow {σ δ : Type} (E : Externals σ δ) (filter : GstRubberBand σ) (st0 : σ)
    (inbuf : GstMapInfo)
    (hgrow : filter.rb_inbuf.frame_capacity
      < required_rb_inbuf_size (input_frame_count filter.info.channels inbuf))
    (hch : 0 ≤ filter.info.channels)
    (hov : required_rb_inbuf_size (input_frame_count filter.info.channels inbuf)
      * filter.info.channels ≤ INT_MAX) :
    AllocLayout (chain_fill E filter st0 inbuf) ∧
      (chain_fill E filter st0 inbuf).channels = filter.info.channels ∧
      (chain_fill E filter st0 inbuf).frame_capacity
        = required_rb_inbuf_size (input_frame_count filter.info.channels inbuf) := by
  have hsz : (chain_size E filter st0 (input_frame_count filter.info.channels inbuf)).1
      = gst_rubber_band_buffer_allocate E.fresh filter.rb_inbuf
          (required_rb_inbuf_size (input_frame_count filter.info.channels inbuf))
          filter.info.channels := by
    unfold chain_size
    rw [if_pos hgrow]
  have hreq : 0 ≤ required_rb_inbuf_size (input_frame_count filter.info.channels inbuf) := by
    rw [required_eq_max]
    omega
  obtain ⟨f1, f2⟩ := chain_fill_fields E filter st0 inbuf
  rw [hsz] at f1 f2
  refine ⟨?_, f2, f1⟩
  unfold chain_fill
  rw [hsz]
  exact append_layout (allocate_layout E.fresh filter.rb_inbuf _ _ hreq hch hov) _ _

theorem chain_fill_keep {σ δ : Type} (E : Externals σ δ) (filter : GstRubberBand σ) (st0 : σ)
    (inbuf : GstMapInfo)
    (hkeep : ¬ filter.rb_inbuf.frame_capacity
      < required_rb_inbuf_size (input_frame_count filter.info.channels inbuf)) :
    chain_fill E filter st0 inbuf
      = gst_rubber_band_buffer_append filter.rb_inbuf inbuf.data
          (input_frame_count filter.info.channels inbuf) := by
  unfold chain_fill chain_size
  rw [if_neg hkeep]

theorem append_reads (buf : GstRubberBandBuffer) (nf : List Sample) (fc : Int)
    (hl : AllocLayout buf) (h0 : 0 ≤ buf.frames_buffered)
    (h1 : buf.frames_buffered ≤ buf.frame_capacity) (c : Nat) (i : Int)
    (hc : (c : Int) < buf.channels) (hi0 : 0 ≤ i)
    (hik : i < min fc (buf.frame_capacity - buf.frames_buffered)) :
    load (gst_rubber_band_buffer_append buf nf fc).data
        ((gst_rubber_band_buffer_append buf nf fc).channel_data.getD c 0
          + (buf.frames_buffered + i))
      = load nf (wrap32 (wrap32 (i * buf.channels) + (c : Int))) := by
  obtain ⟨e1, _, e3, _⟩ := append_data_spec buf nf fc hl h0 h1
  rw [e1, layout_view hl hc]
  exact e3 c i hc hi0 hik

theorem run_event_chunk_event {σ δ : Type} (E : Externals σ δ) (fuel : Nat)
    (filter : GstRubberBand σ) (pad : δ) (e1 e2 : GstEvent) (c : GstMapInfo)
    (r : ChainResult σ δ)
    (h : gst_rubber_band_chain E fuel (gst_rubber_band_sink_event E filter pad e1).1
      (gst_rubber_band_sink_event E filter pad e1).2.1 c = some r) :
    (run E fuel filter pad [StageInput.event e1, StageInput.chunk c, StageInput.event e2]).map
        Prod.fst
      = some (gst_rubber_band_sink_event E r.filter r.pad e2).1 := by
  simp [run, h]

theorem format_change_frame :
    (run (scriptedBy formatChangeScript) 1 (gst_rubber_band_init (List Batch)) []
        (formatChangeInputs.take 3)).bind
      (fun x => x.1.rb_state.map (fun st =>
        (load (chain_fill (scriptedBy formatChangeScript) x.1 st ⟨[7, 8], 8⟩).data
          ((chain_fill (scriptedBy formatChangeScript) x.1 st ⟨[7, 8], 8⟩).channel_data.getD 0 0
            + 0),
        load (chain_fill (scriptedBy formatChangeScript) x.1 st ⟨[7, 8], 8⟩).data
          ((chain_fill (scriptedBy formatChangeScript) x.1 st ⟨[7, 8], 8⟩).channel_data.getD 0 0
            + 1))))
      = some (7, 0) := by
  have hsome : (gst_rubber_band_chain (scriptedBy formatChangeScript) 1
      (gst_rubber_band_sink_event (scriptedBy formatChangeScript)
        (gst_rubber_band_init (List Batch)) [] (GstEvent.CAPS (some stereo))).1
      (gst_rubber_band_sink_event (scriptedBy formatChangeScript)
        (gst_rubber_band_init (List Batch)) [] (GstEvent.CAPS (some stereo))).2.1
      ⟨[1, 2, 3, 4], 16⟩).isSome = true := by decide
  obtain ⟨r1, h1⟩ := Option.isSome_iff_exists.mp hsome
  obtain ⟨st0, _, d1, d2, d3, d4, d5, _⟩ := chain_result_rb_inbuf _ _ _ _ _ r1 h1
  obtain ⟨l1, l2, l3⟩ := chain_fill_grow (scriptedBy formatChangeScript)
    (gst_rubber_band_sink_event (scriptedBy formatChangeScript)
        (gst_rubber_band_init (List Batch)) [] (GstEvent.CAPS (some stereo))).1 st0
    ⟨[1, 2, 3, 4], 16⟩ (by decide) (by decide) (by decide)
  have hreq : required_rb_inbuf_size (input_frame_count 2 ⟨[1, 2, 3, 4], 16⟩) = 4096 := by
    decide
  have hl : AllocLayout r1.filter.rb_inbuf := layout_of_fields l1 d1 d2 d3 d4
  have hch : r1.filter.rb_inbuf.channels = 2 := by rw [d3, l2]; rfl
  have hcap : r1.filter.rb_inbuf.frame_capacity = 4096 := by rw [d4, l3]; exact hreq
  have h3 := run_event_chunk_event (scriptedBy formatChangeScript) 1
    (gst_rubber_band_init (List Batch)) [] (GstEvent.CAPS (some stereo))
    (GstEvent.CAPS (some mono)) ⟨[1, 2, 3, 4], 16⟩ r1 h1
  have htake : formatChangeInputs.take 3
      = [StageInput.event (GstEvent.CAPS (some stereo)), StageInput.chunk ⟨[1, 2, 3, 4], 16⟩,
          StageInput.event (GstEvent.CAPS (some mono))] := rfl
  rw [htake]
  obtain ⟨x, hx, hx1⟩ := Option.map_eq_some'.mp h3
  rw [hx, Option.some_bind, hx1]
  have hn : input_frame_count 1 ⟨[7, 8], 8⟩ = 2 := by decide
  have hkeep := chain_fill_keep (scriptedBy formatChangeScript)
    (gst_rubber_band_sink_event (scriptedBy formatChangeScript) r1.filter r1.pad
      (GstEvent.CAPS (some mono))).1 (formatChangeScript 1) ⟨[7, 8], 8⟩
    (by
      show ¬ r1.filter.rb_inbuf.frame_capacity
        < required_rb_inbuf_size (input_frame_count 1 ⟨[7, 8], 8⟩)
      rw [hcap, hn]
      decide)
  have hkeep2 : chain_fill (scriptedBy formatChangeScript)
      (gst_rubber_band_sink_event (scriptedBy formatChangeScript) r1.filter r1.pad
        (GstEvent.CAPS (some mono))).1 (formatChangeScript 1) ⟨[7, 8], 8⟩
      = gst_rubber_band_buffer_append r1.filter.rb_inbuf [7, 8] 2 := by
    rw [hkeep]
    show gst_rubber_band_buffer_append r1.filter.rb_inbuf [7, 8]
      (input_frame_count 1 ⟨[7, 8], 8⟩) = _
    rw [hn]
  show some (_, _) = some (7, 0)
  congr 2
  · show load (chain_fill (scriptedBy formatChangeScript)
        (gst_rubber_band_sink_event (scriptedBy formatChangeScript) r1.filter r1.pad
          (GstEvent.CAPS (some mono))).1 (formatChangeScript 1) ⟨[7, 8], 8⟩).data
      ((chain_fill (scriptedBy formatChangeScript)
        (gst_rubber_band_sink_event (scriptedBy formatChangeScript) r1.filter r1.pad
          (GstEvent.CAPS (some mono))).1 (formatChangeScript 1) ⟨[7, 8], 8⟩).channel_data.getD
            0 0 + 0) = 7
    rw [hkeep2]
    have hr := append_reads r1.filter.rb_inbuf [7, 8] 2 hl (by rw [d5]) (by rw [d5, hcap]; decide)
      0 0 (by rw [hch]; decide) (by decide) (by rw [d5, hcap]; decide)
    rw [d5, hch] at hr
    exact hr
  · show load (chain_fill (scriptedBy formatChangeScript)
        (gst_rubber_band_sink_event (scriptedBy formatChangeScript) r1.filter r1.pad
          (GstEvent.CAPS (some mono))).1 (formatChangeScript 1) ⟨[7, 8], 8⟩).data
      ((chain_fill (scriptedBy formatChangeScript)
        (gst_rubber_band_sink_event (scriptedBy formatChangeScript) r1.filter r1.pad
          (GstEvent.CAPS (some mono))).1 (formatChangeScript 1) ⟨[7, 8], 8⟩).channel_data.getD
            0 0 + 1) = 0
    rw [hkeep2]
    have hr := append_reads r1.filter.rb_inbuf [7, 8] 2 hl (by rw [d5]) (by rw [d5, hcap]; decide)
      0 1 (by rw [hch]; decide) (by decide) (by rw [d5, hcap]; decide)
    rw [d5, hch] at hr
    exact hr

/-- C11, the code at the failing input.  A format-change signal leaves both
buffers as they are, and `gst_rubber_band_chain` gives a buffer the
negotiated channel count only when it reallocates it: the input buffer when
its capacity is below `required_rb_inbuf_size`, the output buffer when its
capacity is below what `rubberband_available` reports; otherwise the buffer
keeps the channel count it was allocated with.  On the run of
`formatChangeInputs` (stereo format, a chunk of 2 stereo frames, mono
format, a chunk of the 2 mono frames 7 and 8) the second chunk is appended
to an input buffer of 2 channels while 1 channel is negotiated, so the mono
engine is handed the frames 7 and 0 in its channel; it writes the frames 5
and 6 to an output buffer of 2 channels, and the chunk pushed is `[5, 3]`;
at the end 1 channel is negotiated and both buffers have 2. -/
theorem buffers_keep_old_channel_count :
    (∀ (σ δ : Type) (E : Externals σ δ) (filter : GstRubberBand σ) (pad : δ) (event : GstEvent),
      (gst_rubber_band_sink_event E filter pad event).1.rb_inbuf = filter.rb_inbuf ∧
      (gst_rubber_band_sink_event E filter pad event).1.rb_outbuf = filter.rb_outbuf) ∧
    (∀ (σ δ : Type) (E : Externals σ δ) (filter : GstRubberBand σ) (st0 : σ)
        (inbuf : GstMapInfo),
      (chain_fill E filter st0 inbuf).channels
        = if filter.rb_inbuf.frame_capacity
              < required_rb_inbuf_size (input_frame_count filter.info.channels inbuf)
            then filter.info.channels
          else filter.rb_inbuf.channels) ∧
    (∀ (σ δ : Type) (E : Externals σ δ) (channels : Int) (s : ChainState σ δ),
      (drain_retrieve E channels s).channels
        = if s.rb_outbuf.frame_capacity < E.rubberband_available s.st then channels
          else s.rb_outbuf.channels) ∧
    (run (scriptedBy formatChangeScript) 1 (gst_rubber_band_init (List Batch)) []
        (formatChangeInputs.take 3)).bind
      (fun x => x.1.rb_state.map (fun st =>
        (x.1.info.channels,
          (chain_fill (scriptedBy formatChangeScript) x.1 st ⟨[7, 8], 8⟩).channels,
          input_frame_count x.1.info.channels ⟨[7, 8], 8⟩)))
      = some (1, 2, 2) ∧
    (run (scriptedBy formatChangeScript) 1 (gst_rubber_band_init (List Batch)) []
        (formatChangeInputs.take 3)).bind
      (fun x => x.1.rb_state.map (fun st =>
        (load (chain_fill (scriptedBy formatChangeScript) x.1 st ⟨[7, 8], 8⟩).data
          ((chain_fill (scriptedBy formatChangeScript) x.1 st ⟨[7, 8], 8⟩).channel_data.getD 0 0
            + 0),
        load (chain_fill (scriptedBy formatChangeScript) x.1 st ⟨[7, 8], 8⟩).data
          ((chain_fill (scriptedBy formatChangeScript) x.1 st ⟨[7, 8], 8⟩).channel_data.getD 0 0
            + 1))))
      = some (7, 0) ∧
    (run (scriptedBy formatChangeScript) 1 (gst_rubber_band_init (List Batch)) []
        formatChangeInputs).map (fun x => x.2.2)
      = some [Call.rubberband_new 44100 2,
          Call.allocate BufferId.rb_inbuf 0 4096 2,
          Call.set_max_process_size 4096,
          Call.process 2,
          Call.allocate BufferId.rb_outbuf 0 2 2,
          Call.retrieve 2 [[1, 2], [3, 4]] 2,
          Call.push [1, 3, 2, 4] GST_FLOW_OK,
          Call.rubberband_new 44100 1,
          Call.process 2,
          Call.retrieve 2 [[5, 6]] 2,
          Call.push [5, 3] GST_FLOW_OK] ∧
    (run (scriptedBy formatChangeScript) 1 (gst_rubber_band_init (List Batch)) []
        formatChangeInputs).map
      (fun x => (x.1.info.channels, x.1.rb_inbuf.channels, x.1.rb_outbuf.channels))
      = some (1, 2, 2) := by
  refine ⟨?_, ?_, ?_, by decide, format_change_frame, by decide, by decide⟩
  · intro σ δ E filter pad event
    unfold gst_rubber_band_sink_event
    split <;> exact ⟨rfl, rfl⟩
  · intro σ δ E filter st0 inbuf
    exact chain_fill_channels E filter st0 inbuf
  · intro σ δ E channels s
    exact drain_retrieve_channels E channels s
end RubberBandElement
